import Mathlib

/-!
Shallow embedding of the podclaw script-to-timed-media pipeline
(`podclaw/config.py`, `podclaw/script.py`, `podclaw/tts.py`,
`podclaw/subtitles.py`, `podclaw/generator.py`), together with proofs
about its data model and algorithms.

Conventions: Python strings become Lean `String`, with the Python
string primitives used by the code (`strip`, `split`, `lower`, `join`,
`startswith`, slicing at the first `]`) translated to structurally
recursive functions over the character list, so that they both compute
and support induction; Python lists become Lean `List`; Python dicts
that are built once and read by key become association lists looked up
with `List.lookup`; millisecond quantities are `Nat` (Python ints are
unbounded and every quantity in scope is non-negative); fallible
Python code (raising) returns `Option` or an explicit error value.
File-system and network effects are represented by explicit event
traces.
-/

namespace Podclaw

/-! ## Python string primitives -/

/-- Python whitespace test for the ASCII whitespace the code meets. -/
def pyWS (c : Char) : Bool :=
  c = ' ' ∨ c = '\t' ∨ c = '\n' ∨ c = '\r'

/-- Python `str.strip()` on a character list. -/
def stripChars (cs : List Char) : List Char :=
  ((cs.dropWhile pyWS).reverse.dropWhile pyWS).reverse

/-- Python `str.strip()`. -/
def pyStrip (s : String) : String := String.mk (stripChars s.data)

/-- Split a character list at every occurrence of `c`
(Python `str.split(sep)` keeps empty fields). -/
def splitOnChar (c : Char) : List Char → List (List Char)
  | [] => [[]]
  | x :: xs =>
    match splitOnChar c xs with
    | [] => [[]]
    | g :: gs => if x = c then [] :: g :: gs else (x :: g) :: gs

/-- Python `str.split("\n")`. -/
def pyLines (s : String) : List String :=
  (splitOnChar '\n' s.data).map String.mk

/-- Whitespace-separated words of a character list, dropping empty
fields (Python `str.split()` with no argument). -/
def wordsAux (acc : List Char) : List Char → List (List Char)
  | [] => if acc = [] then [] else [acc.reverse]
  | c :: cs =>
    if pyWS c then
      if acc = [] then wordsAux [] cs else acc.reverse :: wordsAux [] cs
    else wordsAux (c :: acc) cs

/-- Python `str.split()` (no separator). -/
def pyWords (s : String) : List String :=
  (wordsAux [] s.data).map String.mk

/-- Python `sep.join(list)`. -/
def joinWith (sep : String) : List String → String
  | [] => ""
  | [a] => a
  | a :: b :: rest => a ++ sep ++ joinWith sep (b :: rest)

/-- ASCII lower-casing of one character (Python `str.lower()` on the
ASCII names the code meets). -/
def lowerChar (c : Char) : Char :=
  if 65 ≤ c.toNat ∧ c.toNat ≤ 90 then Char.ofNat (c.toNat + 32) else c

/-- Python `str.lower()`. -/
def pyLower (s : String) : String := String.mk (s.data.map lowerChar)

/-- Python `len(s)`. -/
def pyLen (s : String) : Nat := s.data.length

/-! ## Data model (`config.py`) -/

/-- Podcast format templates (`config.Format`). -/
inductive Format
  | debate | monologue | news_recap | interview | storytelling
deriving DecidableEq, Repr

/-- ElevenLabs voice configuration (`config.Voice`).  The float-valued
synthesis parameters (`0.5`, `0.75`, `0.0`) are exact decimals that the
code only stores and forwards, never computes with; they are carried
here in hundredths (`50`, `75`, `0`), an injective encoding that keeps
equality kernel-computable. -/
structure Voice where
  name : String
  voice_id : String
  description : String := ""
  model_id : String := "eleven_multilingual_v2"
  stability : Nat := 50
  similarity_boost : Nat := 75
  style : Nat := 0
  use_speaker_boost : Bool := true
deriving DecidableEq, Repr

/-- Built-in voice presets (`config.VOICES`), a dict keyed by
lower-case preset name. -/
def VOICES : List (String × Voice) :=
  [ ("roger",
      { name := "Roger", voice_id := "CwhRBWXzGAHq8TQ4Fs17",
        description := "Laid-back, casual, resonant male" }),
    ("george",
      { name := "George", voice_id := "JBFqnCBsd6RMkjVDRZzb",
        description := "Warm storyteller, British male" }),
    ("callum",
      { name := "Callum", voice_id := "N2lVS1w4EtoT3dr4eOWO",
        description := "Husky trickster male" }) ]

/-- Full configuration for one episode generation (`config.PodclawConfig`);
fields that only parametrise the external encoder are kept for fidelity
but play no role in the claims. -/
structure PodclawConfig where
  topic : String := ""
  format : Format := Format.debate
  duration_seconds : Nat := 120
  custom_script : Option String := none
  voices : List String := ["roger", "george"]
  custom_voices : List (String × Voice) := []
  width : Nat := 1920
  height : Nat := 1080
  show_waveform : Bool := true
  show_subtitles : Bool := true
  subtitle_font_size : Nat := 28
  subtitle_margin_v : Nat := 60
  subtitle_outline : Nat := 3
  output_dir : String := "."
  output_filename : Option String := none
  audio_bitrate : String := "192k"
deriving DecidableEq, Repr

/-- `PodclawConfig.get_voice`: resolve a voice name to a `Voice`.
The queried name is lower-cased, looked up among the user-supplied
custom voices, then among the built-in presets, and otherwise treated
as a raw provider voice id.  Total: it always returns a `Voice`. -/
def get_voice (cfg : PodclawConfig) (name : String) : Voice :=
  let name_lower := pyLower name
  match List.lookup name_lower cfg.custom_voices with
  | some v => v
  | none =>
    match List.lookup name_lower VOICES with
    | some v => v
    | none => { name := name, voice_id := name, description := "Custom voice ID" }

/-- `PodclawConfig.get_all_voices`: resolve the whole roster. -/
def get_all_voices (cfg : PodclawConfig) : List Voice :=
  cfg.voices.map (get_voice cfg)

/-! ## Script parsing (`script.parse_script`) -/

/-- One parsed utterance (`script.parse_script` output element). -/
structure Segment where
  speaker : String
  text : String
deriving DecidableEq, Repr

/-- Parser accumulator: the segments flushed so far, the speaker of the
open segment (`""` renders Python `None` as well as an empty tag label,
both of which are falsy in the flush test), and the open segment's
accumulated text pieces. -/
structure ParseState where
  segments : List Segment
  currentSpeaker : String
  currentText : List String
deriving DecidableEq, Repr

/-- Flush the open segment if both the speaker and the accumulated text
are truthy (`if current_speaker and current_text:` in `parse_script`);
only then is the text accumulator reset. -/
def flushSeg (st : ParseState) : ParseState :=
  if st.currentSpeaker ≠ "" ∧ st.currentText ≠ [] then
    ⟨st.segments ++
        [⟨st.currentSpeaker, pyStrip (joinWith " " st.currentText)⟩],
      st.currentSpeaker, []⟩
  else st

/-- Does a stripped line open a speaker tag
(`line.startswith("[") and "]" in line`)? -/
def isTagLine (line : String) : Bool :=
  (line.data.take 1 = ['[']) && line.data.any (fun c => c = ']')

/-- Process one line of the script (loop body of `parse_script`). -/
def parseStep (st : ParseState) (rawLine : String) : ParseState :=
  let line := pyStrip rawLine
  if line = "" then st
  else if isTagLine line then
    let st1 := flushSeg st
    let speaker := pyStrip (String.mk ((line.data.drop 1).takeWhile (fun c => c ≠ ']')))
    let remaining :=
      pyStrip (String.mk (((line.data.drop 1).dropWhile (fun c => c ≠ ']')).drop 1))
    if remaining ≠ "" then
      ⟨st1.segments, speaker, st1.currentText ++ [remaining]⟩
    else
      ⟨st1.segments, speaker, st1.currentText⟩
  else if st.currentSpeaker ≠ "" then
    ⟨st.segments, st.currentSpeaker, st.currentText ++ [line]⟩
  else st

/-- `script.parse_script`: parse a tagged script into segments. -/
def parse_script (raw : String) : List Segment :=
  (flushSeg ((pyLines (pyStrip raw)).foldl parseStep ⟨[], "", []⟩)).segments

/-! ## Voice assignment (`script.assign_voices`) -/

/-- A segment with its assigned voice (`{**seg, "voice": ...}`). -/
structure VSegment where
  speaker : String
  text : String
  voice : Voice
deriving DecidableEq, Repr

/-- Placeholder used with `List.getD`; every access is proved (or, at
concrete inputs, computed) to be in range, so it is never returned. -/
def dummyVoice : Voice := { name := "", voice_id := "" }

/-- First loop of `assign_voices`: build the speaker-to-voice dict in
first-seen order.  A new speaker is mapped to
`voices[len(speaker_to_voice) % len(voices)]`; with an empty roster
that modulus is Python division by zero, rendered as `none`. -/
def speakerMapAux (voices : List Voice) :
    List (String × Voice) → List Segment → Option (List (String × Voice))
  | m, [] => some m
  | m, seg :: rest =>
    match List.lookup seg.speaker m with
    | some _ => speakerMapAux voices m rest
    | none =>
      if voices.length = 0 then none
      else
        speakerMapAux voices
          (m ++ [(seg.speaker, voices.getD (m.length % voices.length) dummyVoice)]) rest

/-- The completed speaker-to-voice dict of `assign_voices`. -/
def speakerMap (segments : List Segment) (voices : List Voice) :
    Option (List (String × Voice)) :=
  speakerMapAux voices [] segments

/-- `script.assign_voices`: map each segment to itself plus its
speaker's voice.  `none` renders the `ZeroDivisionError` raised on an
empty roster (reached only when some segment introduces a speaker). -/
def assign_voices (segments : List Segment) (cfg : PodclawConfig) :
    Option (List VSegment) :=
  match speakerMap segments (get_all_voices cfg) with
  | none => none
  | some m =>
    some (segments.map (fun seg =>
      ⟨seg.speaker, seg.text, (List.lookup seg.speaker m).getD dummyVoice⟩))

/-- The distinct speakers of a segment list in first-seen order
(the insertion order of the `speaker_to_voice` dict). -/
def firstSeenAux (seen : List String) : List Segment → List String
  | [] => seen
  | seg :: rest =>
    if seg.speaker ∈ seen then firstSeenAux seen rest
    else firstSeenAux (seen ++ [seg.speaker]) rest

/-- Distinct speakers in first-seen order. -/
def firstSeen (segments : List Segment) : List String :=
  firstSeenAux [] segments

/-! ## Subtitle compilation (`subtitles.py`) -/

/-- `subtitles._format_srt_time`: `HH:MM:SS,mmm`. -/
def format_srt_time (ms : Nat) : String :=
  let pad2 := fun (n : Nat) =>
    if (toString n).length < 2 then
      String.mk (List.replicate (2 - (toString n).length) '0') ++ toString n
    else toString n
  let pad3 := fun (n : Nat) =>
    if (toString n).length < 3 then
      String.mk (List.replicate (3 - (toString n).length) '0') ++ toString n
    else toString n
  pad2 (ms / 3600000) ++ ":" ++ pad2 (ms % 3600000 / 60000) ++ ":" ++
    pad2 (ms % 60000 / 1000) ++ "," ++ pad3 (ms % 1000)

/-- Loop body state of `subtitles._split_long_text`:
`(lines, current, current_len)`. -/
def splitStep (maxChars : Nat) (st : List String × List String × Nat)
    (word : String) : List String × List String × Nat :=
  let (lines, current, currentLen) := st
  if currentLen + pyLen word + 1 > maxChars ∧ current ≠ [] then
    (lines ++ [joinWith " " current], [word], pyLen word)
  else
    (lines, current ++ [word], currentLen + pyLen word + 1)

/-- `subtitles._split_long_text`: greedy word wrap into chunks of at
most `maxChars` characters (long single words excepted). -/
def split_long_text (text : String) (maxChars : Nat) : List String :=
  if pyLen text ≤ maxChars then [text]
  else
    let (lines, current, _) := (pyWords text).foldl (splitStep maxChars) ([], [], 0)
    if current ≠ [] then lines ++ [joinWith " " current] else lines

/-- Per-segment timing as produced by the timeline builder
(`tts.concatenate_audio` timing dicts). -/
structure Timing where
  start_ms : Nat
  end_ms : Nat
deriving DecidableEq, Repr

/-- One SRT entry before rendering (`generate_srt` loop):
index, time range and chunk text. -/
structure CaptionEntry where
  index : Nat
  start_ms : Nat
  end_ms : Nat
  text : String
deriving DecidableEq, Repr

/-- The text a segment displays (`generate_srt`: the optional
`[speaker]` prefix). -/
def displayText (showSpeaker : Bool) (seg : Segment) : String :=
  if showSpeaker then "[" ++ seg.speaker ++ "] " ++ seg.text else seg.text

/-- The chunks one segment's display text wraps into. -/
def segChunks (maxChars : Nat) (showSpeaker : Bool) (seg : Segment) : List String :=
  split_long_text (displayText showSpeaker seg) maxChars

/-- `ms_per_chunk = total_ms // max(len(chunks), 1)`. -/
def segMpc (maxChars : Nat) (showSpeaker : Bool) (seg : Segment) (timing : Timing) : Nat :=
  (timing.end_ms - timing.start_ms) / max (segChunks maxChars showSpeaker seg).length 1

/-- The caption entries one segment/timing pair contributes
(`generate_srt` inner loop), given the running global entry index. -/
def segmentEntries (maxChars : Nat) (showSpeaker : Bool)
    (seg : Segment) (timing : Timing) (entryIndex : Nat) : List CaptionEntry :=
  let chunks := segChunks maxChars showSpeaker seg
  let msPerChunk := segMpc maxChars showSpeaker seg timing
  (chunks.enum).map (fun ci =>
    ⟨entryIndex + ci.1,
      timing.start_ms + ci.1 * msPerChunk,
      if ci.1 = chunks.length - 1 then timing.end_ms
      else timing.start_ms + (ci.1 + 1) * msPerChunk,
      ci.2⟩)

/-- Outer loop of `generate_srt` over the zipped segment/timing pairs,
threading the 1-based global entry counter. -/
def srtEntriesAux (maxChars : Nat) (showSpeaker : Bool) :
    List (Segment × Timing) → Nat → List CaptionEntry
  | [], _ => []
  | (seg, timing) :: rest, entryIndex =>
    let es := segmentEntries maxChars showSpeaker seg timing entryIndex
    es ++ srtEntriesAux maxChars showSpeaker rest (entryIndex + es.length)

/-- The sequence of caption entries `subtitles.generate_srt` emits
(the file itself renders each entry with `_format_srt_time`). -/
def generate_srt_entries (segments : List Segment) (timings : List Timing)
    (maxChars : Nat) (showSpeaker : Bool) : List CaptionEntry :=
  srtEntriesAux maxChars showSpeaker (segments.zip timings) 1

/-! ## Timeline builder (`tts.concatenate_audio`, timing part) -/

/-- One timing dict of `concatenate_audio`:
`{"start_ms", "end_ms", "path"}`. -/
structure TimingP where
  start_ms : Nat
  end_ms : Nat
  path : String
deriving DecidableEq, Repr

/-- Timing loop of `concatenate_audio`, cursor-threaded: the duration
of each segment file is measured by the external probe `durMs`
(`_get_duration_ms`), and `gap` milliseconds separate segments. -/
def buildTimingsAux (durMs : String → Nat) (gap : Nat) :
    Nat → List String → List TimingP
  | _, [] => []
  | cur, p :: rest =>
    ⟨cur, cur + durMs p, p⟩ :: buildTimingsAux durMs gap (cur + durMs p + gap) rest

/-- The timing list `concatenate_audio` returns (its audio output is an
external encoder effect, recorded separately in the pipeline trace). -/
def buildTimings (paths : List String) (durMs : String → Nat) (gap : Nat) :
    List TimingP :=
  buildTimingsAux durMs gap 0 paths

/-- Forget the path component, giving the subtitle compiler's view. -/
def TimingP.toTiming (t : TimingP) : Timing := ⟨t.start_ms, t.end_ms⟩

/-! ## Synthesis orchestrator (`tts.synthesize_all_segments`) -/

/-- A synthesized segment: the voiced segment plus `"audio_path"`. -/
structure ASegment where
  speaker : String
  text : String
  voice : Voice
  audio_path : String
deriving DecidableEq, Repr

/-- Zero-padded decimal of width 4 (Python `f"{i:04d}"`). -/
def pad4 (n : Nat) : String :=
  String.mk (List.replicate (4 - (toString n).length) '0') ++ toString n

/-- Scratch file name of segment `i` (`segment_{i:04d}.mp3`). -/
def segmentFile (i : Nat) : String := "segment_" ++ pad4 i ++ ".mp3"

/-- Observable events of `synthesize_all_segments`: the progress
callback, a synthesis call that returned (and persisted its file), and
a synthesis call that raised. -/
inductive SynthEv
  | progress (current total : Nat) (speaker : String)
  | call (idx : Nat)
  | callFailed (idx : Nat)
deriving DecidableEq, Repr

/-- Loop of `synthesize_all_segments` from segment index `i`: the
progress callback fires first (`if on_progress: on_progress(i + 1, ...)`),
then `synthesize_segment` runs; a raise (`ok i = false`) propagates,
aborting the remaining segments.  Returns the event trace and, unless
some call raised, the segments extended with their audio paths. -/
def synthAux (ok : Nat → Bool) (total : Nat) :
    Nat → List VSegment → List SynthEv × Option (List ASegment)
  | _, [] => ([], some [])
  | i, seg :: rest =>
    if ok i then
      let (evs, res) := synthAux ok total (i + 1) rest
      (SynthEv.progress (i + 1) total seg.speaker :: SynthEv.call i :: evs,
        res.map (fun l => ⟨seg.speaker, seg.text, seg.voice, segmentFile i⟩ :: l))
    else
      ([SynthEv.progress (i + 1) total seg.speaker, SynthEv.callFailed i], none)

/-- `tts.synthesize_all_segments`, with the external service rendered
as the success predicate `ok` over segment indices. -/
def synthesize_all_segments (segments : List VSegment) (ok : Nat → Bool) :
    List SynthEv × Option (List ASegment) :=
  synthAux ok segments.length 0 segments

/-! ## Demo script generation (`script.generate_demo_script`) -/

/-- `script.SPEAKER_ROLES` with the `.get` default
`["HOST_A", "HOST_B"]` already total over `Format`. -/
def SPEAKER_ROLES : Format → List String
  | Format.debate => ["HOST_A", "HOST_B"]
  | Format.monologue => ["HOST"]
  | Format.news_recap => ["ANCHOR", "CORRESPONDENT"]
  | Format.interview => ["INTERVIEWER", "GUEST"]
  | Format.storytelling => ["NARRATOR", "COLOR"]

/-- `script.generate_demo_script`: the fixed demo script for a topic,
chosen by format.  Apostrophes are written `\x27`. -/
def generate_demo_script (cfg : PodclawConfig) : String :=
  let t := cfg.topic
  match cfg.format with
  | Format.monologue =>
    joinWith "\n"
      [ "[HOST] Welcome to the show! Today we\x27re diving deep into " ++ t ++ ".",
        "[HOST] This is one of those topics that everyone has an opinion on, but very few people actually understand.",
        "[HOST] So let me break it down for you.",
        "[HOST] First off, let\x27s talk about why " ++ t ++ " matters right now.",
        "[HOST] The world is changing fast, and this is at the center of it.",
        "[HOST] Here\x27s what most people get wrong about it.",
        "[HOST] They think it\x27s simple. It\x27s not. It\x27s layers upon layers of complexity.",
        "[HOST] But here\x27s the good news - once you understand the core principle, everything else clicks.",
        "[HOST] And that core principle? It all comes down to one thing.",
        "[HOST] Incentives. Follow the incentives, and you\x27ll understand " ++ t ++ ".",
        "[HOST] That\x27s all for today. Thanks for listening, and I\x27ll catch you in the next one." ]
  | Format.news_recap =>
    joinWith "\n"
      [ "[ANCHOR] Good evening! Top stories tonight - major developments in " ++ t ++ ".",
        "[CORRESPONDENT] That\x27s right. We\x27ve been tracking this all week, and things are heating up.",
        "[ANCHOR] Give us the rundown.",
        "[CORRESPONDENT] Three big developments. First, the landscape has shifted dramatically.",
        "[ANCHOR] How so?",
        "[CORRESPONDENT] New players are entering the space, and the old guard isn\x27t happy about it.",
        "[ANCHOR] And the second development?",
        "[CORRESPONDENT] The numbers are in, and they\x27re surprising everyone. Way higher than expected.",
        "[ANCHOR] That\x27s significant. And the third?",
        "[CORRESPONDENT] Perhaps most importantly - the regulatory picture is changing.",
        "[ANCHOR] What does this mean for the average person?",
        "[CORRESPONDENT] It means " ++ t ++ " is about to affect everyone, whether they\x27re paying attention or not.",
        "[ANCHOR] That\x27s all the time we have. Stay informed, stay sharp." ]
  | fmt =>
    let roles := SPEAKER_ROLES fmt
    let a := roles.getD 0 ""
    let b := if roles.length > 1 then roles.getD 1 "" else roles.getD 0 ""
    joinWith "\n"
      [ "[" ++ a ++ "] Welcome to the show! Today we\x27re tackling " ++ t ++ ".",
        "[" ++ b ++ "] Oh, this is going to be good. I have STRONG opinions on this one.",
        "[" ++ a ++ "] I know you do. So let\x27s get right into it. Where do you stand?",
        "[" ++ b ++ "] Here\x27s the thing - most people are looking at " ++ t ++ " completely wrong.",
        "[" ++ a ++ "] Wrong how? Walk me through it.",
        "[" ++ b ++ "] They\x27re focused on the surface level. The flashy stuff. But the real story is underneath.",
        "[" ++ a ++ "] Okay, I\x27ll push back on that. The surface level matters because that\x27s what people experience.",
        "[" ++ b ++ "] Sure, but if you only look at what\x27s visible, you miss the entire mechanism driving it.",
        "[" ++ a ++ "] Fair point. So what\x27s the mechanism?",
        "[" ++ b ++ "] It comes down to three things. Money, power, and timing.",
        "[" ++ a ++ "] The holy trinity.",
        "[" ++ b ++ "] Exactly. And right now, the timing couldn\x27t be more critical.",
        "[" ++ a ++ "] This has been a fantastic discussion. Thanks for tuning in everyone!",
        "[" ++ b ++ "] Peace!" ]

/-! ## Pipeline controller (`generator.PodcastGenerator`) -/

/-- The artifacts that can land in the destination output directory. -/
inductive Artifact
  | video | audioFinal | srtFinal | scriptFinal | bgFinal
deriving DecidableEq, Repr

/-- Observable pipeline events, in the order the code performs them:
progress callbacks, directory creation, writes into the scratch
working directory, synthesis events, writes into the destination
output directory, and the unconditional scratch cleanup. -/
inductive Ev
  | progress (stage msg : String)
  | outputDirCreate
  | scratchDirCreate
  | scratchWrite (name : String)
  | synthProgress (current total : Nat) (speaker : String)
  | synthCall (idx : Nat)
  | synthFailed (idx : Nat)
  | outputWrite (a : Artifact)
  | cleanup
deriving DecidableEq, Repr

/-- The ways a run aborts, tagged by raising site. -/
inductive PErr
  | configErr (msg : String)
  | parseErr (msg : String)
  | zeroDivErr
  | apiKeyErr
  | synthErr
  | concatErr
  | bgErr
  | assembleErr
  | copyErr (a : Artifact)
deriving DecidableEq, Repr

/-- Success manifest fields the model tracks. -/
structure Manifest where
  segment_count : Nat
  duration_seconds : Nat
deriving DecidableEq, Repr

/-- Behaviour of the external collaborators for one run: whether the
API key resolves, which synthesis calls return, the probed duration of
each audio file, and whether each encoder call or artifact copy
succeeds. -/
structure ExtBehavior where
  apiKeyPresent : Bool := true
  synthOk : Nat → Bool := fun _ => true
  durationMs : String → Nat := fun _ => 1000
  concatOk : Bool := true
  bgOk : Bool := true
  assembleOk : Bool := true
  copyAudioOk : Bool := true
  copySrtOk : Bool := true
  copyScriptOk : Bool := true
  copyBgOk : Bool := true
  finalDurationSec : Nat := 0

deriving instance DecidableEq for Except

/-- Python truthiness of an optional string (`None` and `""` falsy). -/
def truthy (o : Option String) : Bool :=
  match o with
  | none => false
  | some s => s ≠ ""

/-- Script resolution in `_run_pipeline`: the `script` argument, else
`config.custom_script`, else the demo script (Python truthiness). -/
def resolveScript (cfg : PodclawConfig) (script : Option String) : String :=
  if truthy script then script.getD ""
  else if truthy cfg.custom_script then cfg.custom_script.getD ""
  else generate_demo_script cfg

/-- `generator` output-name sanitisation (`safe_topic`). -/
def safeTopic (topic : String) : String :=
  let kept := topic.data.filter (fun c => c.isAlphanum ∨ c = ' ' ∨ c = '-' ∨ c = '_')
  String.mk (((stripChars kept).map (fun c => if c = ' ' then '_' else c)).take 50)

/-- The output video file name. -/
def outputName (cfg : PodclawConfig) : String :=
  if truthy cfg.output_filename then cfg.output_filename.getD ""
  else "podclaw_" ++ safeTopic cfg.topic ++ ".mp4"

/-- Pipeline view of one synthesis event (`synthesize_segment` also
persists the segment file in scratch when it returns). -/
def synthEvToEv : SynthEv → List Ev
  | SynthEv.progress c t s => [Ev.synthProgress c t s]
  | SynthEv.call i => [Ev.synthCall i, Ev.scratchWrite (segmentFile i)]
  | SynthEv.callFailed i => [Ev.synthFailed i]

/-- `generator.PodcastGenerator._run_pipeline`: the straight-line stage
sequence, producing the event trace up to success or the first raise.
A raising step contributes no write of its own (its effect either
never starts or is modelled at the granularity of whole files). -/
def runPipeline (cfg : PodclawConfig) (script : Option String) (ext : ExtBehavior) :
    List Ev × Except PErr Manifest :=
  let e1 := [Ev.progress "script" "Generating script...",
             Ev.scratchWrite "script.txt"]
  let segs := parse_script (resolveScript cfg script)
  if segs = [] then
    (e1, Except.error (PErr.parseErr "Script parsing produced no segments. Check format."))
  else
    match assign_voices segs cfg with
    | none => (e1, Except.error PErr.zeroDivErr)
    | some vsegs =>
      let e2 := e1 ++
        [Ev.progress "script" ("Script ready: " ++ toString segs.length ++ " segments"),
         Ev.progress "tts" "Synthesizing speech..."]
      if ext.apiKeyPresent = false then (e2, Except.error PErr.apiKeyErr)
      else
        let sres := synthesize_all_segments vsegs ext.synthOk
        let e3 := e2 ++ sres.1.flatMap synthEvToEv
        match sres.2 with
        | none => (e3, Except.error PErr.synthErr)
        | some asegs =>
          let e4 := e3 ++ [Ev.progress "audio" "Concatenating audio..."]
          if ext.concatOk = false then (e4, Except.error PErr.concatErr)
          else
            let timings := buildTimings (asegs.map (fun s => s.audio_path)) ext.durationMs 400
            let _entries := generate_srt_entries (asegs.map (fun s => ⟨s.speaker, s.text⟩))
                              (timings.map TimingP.toTiming) 80 false
            let e5 := e4 ++
              [Ev.scratchWrite "combined.mp3", Ev.progress "audio" "Audio ready",
               Ev.progress "subtitles" "Generating subtitles...",
               Ev.scratchWrite "subtitles.srt", Ev.progress "subtitles" "Subtitles ready",
               Ev.progress "video" "Creating background..."]
            if ext.bgOk = false then (e5, Except.error PErr.bgErr)
            else
              let e6 := e5 ++
                [Ev.scratchWrite "background.png", Ev.progress "video" "Background ready",
                 Ev.progress "video" "Assembling final video..."]
              if ext.assembleOk = false then (e6, Except.error PErr.assembleErr)
              else
                let e7 := e6 ++
                  [Ev.outputWrite Artifact.video,
                   Ev.progress "done" ("Episode complete: " ++ outputName cfg)]
                if ext.copyAudioOk = false then
                  (e7, Except.error (PErr.copyErr Artifact.audioFinal))
                else
                  let e8 := e7 ++ [Ev.outputWrite Artifact.audioFinal]
                  if ext.copySrtOk = false then
                    (e8, Except.error (PErr.copyErr Artifact.srtFinal))
                  else
                    let e9 := e8 ++ [Ev.outputWrite Artifact.srtFinal]
                    if ext.copyScriptOk = false then
                      (e9, Except.error (PErr.copyErr Artifact.scriptFinal))
                    else
                      let e10 := e9 ++ [Ev.outputWrite Artifact.scriptFinal]
                      if ext.copyBgOk = false then
                        (e10, Except.error (PErr.copyErr Artifact.bgFinal))
                      else
                        (e10 ++ [Ev.outputWrite Artifact.bgFinal],
                          Except.ok ⟨asegs.length, ext.finalDurationSec⟩)

/-- `generator.PodcastGenerator.generate`: the topic/script
configuration check (raised before any directory or file is touched),
then scratch and output directory creation, the pipeline body, and the
unconditional scratch cleanup (`finally`). -/
def generate (cfg : PodclawConfig) (script : Option String) (ext : ExtBehavior) :
    List Ev × Except PErr Manifest :=
  if cfg.topic = "" ∧ truthy script = false ∧ truthy cfg.custom_script = false then
    ([], Except.error (PErr.configErr "Must provide a topic or script."))
  else
    let r := runPipeline cfg script ext
    (Ev.scratchDirCreate :: Ev.outputDirCreate :: r.1 ++ [Ev.cleanup], r.2)

/-- Is an event a write into the destination output directory? -/
def isOutputWrite : Ev → Bool
  | Ev.outputWrite _ => true
  | _ => false

/-- The order in which the five artifacts reach the output directory
when nothing fails. -/
def outputOrder : List Ev :=
  [Ev.outputWrite Artifact.video, Ev.outputWrite Artifact.audioFinal,
   Ev.outputWrite Artifact.srtFinal, Ev.outputWrite Artifact.scriptFinal,
   Ev.outputWrite Artifact.bgFinal]

/-- Placeholder timing for `List.getD`; every indexed access below is
guarded by a length bound, so it is never returned. -/
def dummyTimingP : TimingP := ⟨0, 0, ""⟩

/-- Placeholder segment for `List.getD` under a length guard. -/
def dummySegment : Segment := ⟨"", ""⟩

/-- Placeholder voiced segment for `List.getD` under a length guard. -/
def dummyVSegment : VSegment := ⟨"", "", dummyVoice⟩

/-- The dict `assign_voices` builds once the distinct speakers in
first-seen order are `ks`, with positions counted from `j`:
speaker number `i` is paired with `voices[i % len(voices)]`. -/
def assocOfFrom (voices : List Voice) (j : Nat) (ks : List String) :
    List (String × Voice) :=
  (ks.enumFrom j).map (fun p => (p.2, voices.getD (p.1 % voices.length) dummyVoice))

/-- Does a name hit a custom or built-in roster entry under the code's
lookup discipline (lower-cased query, keys as stored)? -/
def matchesEntry (cfg : PodclawConfig) (name : String) : Bool :=
  (List.lookup (pyLower name) cfg.custom_voices).isSome ||
    (List.lookup (pyLower name) VOICES).isSome

/-- Invariant of the `_split_long_text` greedy loop: the closed lines
are the single-space joins of a partition of the words consumed so far
into non-empty groups, with the open line as the final group; and the
open line is empty only at the very start. -/
def wrapInv (st : List String × List String × Nat) (processed : List String) : Prop :=
  (∃ gs : List (List String), (∀ g ∈ gs, g ≠ []) ∧
    st.1 = gs.map (joinWith " ") ∧ gs.flatten ++ st.2.1 = processed) ∧
  (st.2.1 = [] → st.1 = [] ∧ processed = [])

/-- Placeholder caption entry for `List.getD` under a length guard. -/
def dummyCaption : CaptionEntry := ⟨0, 0, 0, ""⟩

/-- Are consecutive caption time ranges strictly increasing and
non-overlapping (each entry starts strictly after the previous one
starts and no earlier than it ends)? -/
def captionChainB : List CaptionEntry → Bool
  | [] => true
  | [_] => true
  | a :: b :: rest =>
    decide (a.start_ms < b.start_ms) && decide (a.end_ms ≤ b.start_ms) &&
      captionChainB (b :: rest)

/-- Does every caption entry span a non-empty time range? -/
def captionNondegB (es : List CaptionEntry) : Bool :=
  es.all (fun e => decide (e.start_ms < e.end_ms))

/-- The claim's "strictly increasing, non-overlapping" reading: a
chain of non-empty, ordered, non-overlapping time ranges. -/
def entriesStrictB (es : List CaptionEntry) : Bool :=
  captionChainB es && captionNondegB es

/-- The per-segment caption blocks of a subtitle run, with the global
entry counter threaded through. -/
def srtBlocks (maxChars : Nat) (showSpeaker : Bool) :
    List (Segment × Timing) → Nat → List (List CaptionEntry)
  | [], _ => []
  | (seg, timing) :: rest, base =>
    segmentEntries maxChars showSpeaker seg timing base ::
      srtBlocks maxChars showSpeaker rest
        (base + (segmentEntries maxChars showSpeaker seg timing base).length)

/-! ## Timeline builder lemmas -/

lemma buildTimingsAux_length (d : String → Nat) (g : Nat) :
    ∀ (ps : List String) (cur : Nat), (buildTimingsAux d g cur ps).length = ps.length := by
  intro ps
  induction ps with
  | nil => intro cur; rfl
  | cons p rest ih => intro cur; simp [buildTimingsAux, ih]

lemma buildTimingsAux_getD (d : String → Nat) (g : Nat) :
    ∀ (ps : List String) (cur i : Nat), i < ps.length →
      (buildTimingsAux d g cur ps).getD i dummyTimingP =
        ⟨cur + ((ps.take i).map d).sum + i * g,
         cur + ((ps.take (i + 1)).map d).sum + i * g,
         ps.getD i ""⟩ := by
  intro ps
  induction ps with
  | nil => intro cur i h; simp at h
  | cons p rest ih =>
    intro cur i h
    cases i with
    | zero => simp [buildTimingsAux]
    | succ i =>
      have hi : i < rest.length := by simpa using h
      have := ih (cur + d p + g) i hi
      simp only [buildTimingsAux, List.getD_cons_succ, List.take_succ_cons,
        List.map_cons, List.sum_cons, List.getD_cons_succ] at this ⊢
      rw [this]
      have h1 : cur + d p + g + ((rest.take i).map d).sum + i * g
          = cur + (d p + ((rest.take i).map d).sum) + (i + 1) * g := by ring
      have h2 : cur + d p + g + ((rest.take (i + 1)).map d).sum + i * g
          = cur + (d p + ((rest.take (i + 1)).map d).sum) + (i + 1) * g := by ring
      rw [h1, h2]

/-- C2: for a non-empty list of segment audio files and any gap, the
timeline builder yields one timing per segment with `start_ms[0] = 0`,
`end_ms[i] = start_ms[i] + duration_ms[i]`,
`start_ms[i+1] = end_ms[i] + gap_ms`, and final
`end_ms = sum of durations + (N - 1) * gap_ms`. -/
theorem claim_C2_timeline (paths : List String) (durMs : String → Nat) (gap : Nat)
    (hne : paths ≠ []) :
    (buildTimings paths durMs gap).length = paths.length ∧
    ((buildTimings paths durMs gap).getD 0 dummyTimingP).start_ms = 0 ∧
    (∀ i, i < paths.length →
      ((buildTimings paths durMs gap).getD i dummyTimingP).end_ms
        = ((buildTimings paths durMs gap).getD i dummyTimingP).start_ms
          + durMs (paths.getD i "")) ∧
    (∀ i, i + 1 < paths.length →
      ((buildTimings paths durMs gap).getD (i + 1) dummyTimingP).start_ms
        = ((buildTimings paths durMs gap).getD i dummyTimingP).end_ms + gap) ∧
    ((buildTimings paths durMs gap).getD (paths.length - 1) dummyTimingP).end_ms
      = (paths.map durMs).sum + (paths.length - 1) * gap := by
  have hlen : 0 < paths.length := List.length_pos.mpr hne
  refine ⟨buildTimingsAux_length _ _ _ _, ?_, ?_, ?_, ?_⟩
  · rw [buildTimings, buildTimingsAux_getD durMs gap paths 0 0 hlen]
    simp
  · intro i hi
    rw [buildTimings, buildTimingsAux_getD durMs gap paths 0 i hi]
    have hs : ((paths.take (i + 1)).map durMs).sum
        = ((paths.take i).map durMs).sum + durMs (paths.getD i "") := by
      have h := List.sum_take_succ (paths.map durMs) i (by simpa using hi)
      rw [List.map_take, List.map_take, h, List.getElem_map,
        List.getD_eq_getElem paths "" hi]
    simp only []
    rw [hs]
    ring
  · intro i hi
    have hi1 : i < paths.length := Nat.lt_of_succ_lt hi
    rw [buildTimings, buildTimingsAux_getD durMs gap paths 0 (i + 1) hi,
      buildTimingsAux_getD durMs gap paths 0 i hi1]
    simp only []
    ring
  · have hsub : paths.length - 1 < paths.length := Nat.sub_lt hlen Nat.one_pos
    rw [buildTimings, buildTimingsAux_getD durMs gap paths 0 (paths.length - 1) hsub]
    have h1 : paths.length - 1 + 1 = paths.length := Nat.succ_pred_eq_of_pos hlen
    rw [h1, List.take_length]
    simp

/-- Witness for `claim_C2_timeline` at a concrete three-segment run. -/
theorem claim_C2_timeline_witness :
    (["a", "b", "c"] : List String) ≠ [] ∧
    ((buildTimings ["a", "b", "c"] (fun p => if p = "a" then 1000 else 2000) 400).getD 2
        dummyTimingP).end_ms
      = (["a", "b", "c"].map (fun p => if p = "a" then 1000 else 2000)).sum + 2 * 400 := by
  have h := claim_C2_timeline ["a", "b", "c"]
    (fun p => if p = "a" then 1000 else 2000) 400 (by decide)
  exact ⟨by decide, h.2.2.2.2⟩

/-! ## Voice assignment lemmas -/

lemma speakerMapAux_isSome (voices : List Voice) (hv : voices ≠ []) :
    ∀ (segs : List Segment) (m : List (String × Voice)),
      (speakerMapAux voices m segs).isSome := by
  intro segs
  induction segs with
  | nil => intro m; rfl
  | cons seg rest ih =>
    intro m
    rw [speakerMapAux]
    cases List.lookup seg.speaker m with
    | some v => exact ih m
    | none =>
      have : voices.length ≠ 0 := by simpa using hv
      simp only [this, if_neg this]
      exact ih _

/-- C9: with a non-empty roster, `assign_voices` succeeds, preserves
the segment list's length and order, and each output element is the
input element at the same position extended with a `voice` field. -/
theorem claim_C9_assign_frame (segs : List Segment) (cfg : PodclawConfig)
    (hv : get_all_voices cfg ≠ []) :
    ∃ res, assign_voices segs cfg = some res ∧
      res.length = segs.length ∧
      ∀ i, i < segs.length →
        res.getD i dummyVSegment =
          ⟨(segs.getD i dummySegment).speaker, (segs.getD i dummySegment).text,
            (res.getD i dummyVSegment).voice⟩ := by
  have hsome := speakerMapAux_isSome (get_all_voices cfg) hv segs []
  rw [assign_voices, speakerMap]
  cases hm : speakerMapAux (get_all_voices cfg) [] segs with
  | none => rw [hm] at hsome; simp at hsome
  | some m =>
    refine ⟨_, rfl, by simp, ?_⟩
    intro i hi
    have him : i < (segs.map (fun seg =>
        (⟨seg.speaker, seg.text, (List.lookup seg.speaker m).getD dummyVoice⟩ :
          VSegment))).length := by simpa using hi
    rw [List.getD_eq_getElem _ _ him, List.getD_eq_getElem _ _ hi, List.getElem_map]

/-- Witness for `claim_C9_assign_frame` on a concrete two-speaker
script and the default roster. -/
theorem claim_C9_assign_frame_witness :
    get_all_voices {} ≠ [] ∧
    ∃ res, assign_voices [⟨"A", "x"⟩, ⟨"B", "y"⟩] {} = some res ∧
      res.length = ([⟨"A", "x"⟩, ⟨"B", "y"⟩] : List Segment).length ∧
      ∀ i, i < ([⟨"A", "x"⟩, ⟨"B", "y"⟩] : List Segment).length →
        res.getD i dummyVSegment =
          ⟨(([⟨"A", "x"⟩, ⟨"B", "y"⟩] : List Segment).getD i dummySegment).speaker,
            (([⟨"A", "x"⟩, ⟨"B", "y"⟩] : List Segment).getD i dummySegment).text,
            (res.getD i dummyVSegment).voice⟩ :=
  ⟨by decide, claim_C9_assign_frame [⟨"A", "x"⟩, ⟨"B", "y"⟩] {} (by decide)⟩

lemma assocOfFrom_length (voices : List Voice) (j : Nat) (ks : List String) :
    (assocOfFrom voices j ks).length = ks.length := by
  simp [assocOfFrom]

lemma assocOfFrom_append_singleton (voices : List Voice) (j : Nat)
    (ks : List String) (s : String) :
    assocOfFrom voices j (ks ++ [s]) =
      assocOfFrom voices j ks ++
        [(s, voices.getD ((j + ks.length) % voices.length) dummyVoice)] := by
  simp [assocOfFrom, List.enumFrom_append]

lemma lookup_assocOfFrom_none (voices : List Voice) (s : String) :
    ∀ (ks : List String) (j : Nat), s ∉ ks →
      List.lookup s (assocOfFrom voices j ks) = none := by
  intro ks
  induction ks with
  | nil => intro j _; rfl
  | cons k rest ih =>
    intro j hs
    have hk : s ≠ k := fun h => hs (h ▸ List.mem_cons_self k rest)
    have hr : s ∉ rest := fun h => hs (List.mem_cons_of_mem k h)
    have hbeq : (s == k) = false := beq_eq_false_iff_ne.mpr hk
    simp only [assocOfFrom, List.enumFrom_cons, List.map_cons, List.lookup_cons, hbeq]
    exact ih (j + 1) hr

lemma lookup_assocOfFrom_isSome (voices : List Voice) (s : String) :
    ∀ (ks : List String) (j : Nat), s ∈ ks →
      (List.lookup s (assocOfFrom voices j ks)).isSome := by
  intro ks
  induction ks with
  | nil => intro j hs; simp at hs
  | cons k rest ih =>
    intro j hs
    by_cases hk : s = k
    · have hbeq : (s == k) = true := beq_iff_eq.mpr hk
      simp only [assocOfFrom, List.enumFrom_cons, List.map_cons, List.lookup_cons, hbeq]
      rfl
    · have hbeq : (s == k) = false := beq_eq_false_iff_ne.mpr hk
      simp only [assocOfFrom, List.enumFrom_cons, List.map_cons, List.lookup_cons, hbeq]
      exact ih (j + 1) (by cases List.mem_cons.mp hs with
        | inl h => exact absurd h hk
        | inr h => exact h)

lemma lookup_assocOfFrom_nodup (voices : List Voice) :
    ∀ (ks : List String) (j i : Nat), ks.Nodup → i < ks.length →
      List.lookup (ks.getD i "") (assocOfFrom voices j ks) =
        some (voices.getD ((j + i) % voices.length) dummyVoice) := by
  intro ks
  induction ks with
  | nil => intro j i _ hi; simp at hi
  | cons k rest ih =>
    intro j i hnd hi
    have hndr : rest.Nodup := (List.nodup_cons.mp hnd).2
    have hkr : k ∉ rest := (List.nodup_cons.mp hnd).1
    cases i with
    | zero =>
      simp only [List.getD_cons_zero, assocOfFrom, List.enumFrom_cons,
        List.map_cons, List.lookup_cons, beq_self_eq_true]
      simp
    | succ i =>
      have hir : i < rest.length := by simpa using hi
      have hmem : rest.getD i "" ∈ rest := by
        rw [List.getD_eq_getElem _ _ hir]; exact List.getElem_mem hir
      have hne : rest.getD i "" ≠ k := fun h => hkr (h ▸ hmem)
      have hbeq : (rest.getD i "" == k) = false := beq_eq_false_iff_ne.mpr hne
      simp only [List.getD_cons_succ, assocOfFrom, List.enumFrom_cons,
        List.map_cons, List.lookup_cons, hbeq]
      have h2 := ih (j + 1) i hndr hir
      rw [assocOfFrom] at h2
      rw [h2]
      have harith : j + 1 + i = j + (i + 1) := by ring
      rw [harith]

/-- `speakerMapAux`, started from the dict for already-seen speakers
`ks`, completes to the dict for `firstSeenAux ks segs`. -/
lemma speakerMapAux_char (voices : List Voice) (hv : voices ≠ []) :
    ∀ (segs : List Segment) (ks : List String),
      speakerMapAux voices (assocOfFrom voices 0 ks) segs =
        some (assocOfFrom voices 0 (firstSeenAux ks segs)) := by
  intro segs
  induction segs with
  | nil => intro ks; rfl
  | cons seg rest ih =>
    intro ks
    rw [speakerMapAux, firstSeenAux]
    by_cases hs : seg.speaker ∈ ks
    · rw [if_pos hs]
      have hsome := lookup_assocOfFrom_isSome voices seg.speaker ks 0 hs
      cases hl : List.lookup seg.speaker (assocOfFrom voices 0 ks) with
      | none => rw [hl] at hsome; simp at hsome
      | some v => exact ih ks
    · rw [if_neg hs, lookup_assocOfFrom_none voices seg.speaker ks 0 hs]
      have hM : voices.length ≠ 0 := by simpa using hv
      simp only [if_neg hM]
      rw [assocOfFrom_length]
      have : assocOfFrom voices 0 ks ++
          [(seg.speaker, voices.getD ((0 + ks.length) % voices.length) dummyVoice)] =
          assocOfFrom voices 0 (ks ++ [seg.speaker]) := by
        rw [assocOfFrom_append_singleton]
      rw [Nat.zero_add] at this
      rw [this]
      exact ih (ks ++ [seg.speaker])

lemma firstSeenAux_nodup :
    ∀ (segs : List Segment) (ks : List String), ks.Nodup →
      (firstSeenAux ks segs).Nodup := by
  intro segs
  induction segs with
  | nil => intro ks h; exact h
  | cons seg rest ih =>
    intro ks h
    rw [firstSeenAux]
    by_cases hs : seg.speaker ∈ ks
    · rw [if_pos hs]; exact ih ks h
    · rw [if_neg hs]
      exact ih _ (by simp [List.nodup_append, h, hs])

lemma firstSeenAux_mono :
    ∀ (segs : List Segment) (ks : List String) (s : String), s ∈ ks →
      s ∈ firstSeenAux ks segs := by
  intro segs
  induction segs with
  | nil => intro ks s h; exact h
  | cons seg rest ih =>
    intro ks s h
    rw [firstSeenAux]
    by_cases hs : seg.speaker ∈ ks
    · rw [if_pos hs]; exact ih ks s h
    · rw [if_neg hs]; exact ih _ s (List.mem_append_left _ h)

lemma firstSeenAux_mem :
    ∀ (segs : List Segment) (ks : List String) (seg : Segment), seg ∈ segs →
      seg.speaker ∈ firstSeenAux ks segs := by
  intro segs
  induction segs with
  | nil => intro ks seg h; simp at h
  | cons seg0 rest ih =>
    intro ks seg h
    rw [firstSeenAux]
    cases List.mem_cons.mp h with
    | inl he =>
      subst he
      by_cases hs : seg.speaker ∈ ks
      · rw [if_pos hs]; exact firstSeenAux_mono rest ks _ hs
      · rw [if_neg hs]
        exact firstSeenAux_mono rest _ _ (List.mem_append_right _ (by simp))
    | inr hr =>
      by_cases hs : seg0.speaker ∈ ks
      · rw [if_pos hs]; exact ih ks seg hr
      · rw [if_neg hs]; exact ih _ seg hr

lemma firstSeenAux_src :
    ∀ (segs : List Segment) (ks : List String) (s : String),
      s ∈ firstSeenAux ks segs → s ∈ ks ∨ ∃ seg ∈ segs, seg.speaker = s := by
  intro segs
  induction segs with
  | nil => intro ks s h; exact Or.inl h
  | cons seg0 rest ih =>
    intro ks s h
    rw [firstSeenAux] at h
    by_cases hs : seg0.speaker ∈ ks
    · rw [if_pos hs] at h
      cases ih ks s h with
      | inl hk => exact Or.inl hk
      | inr he =>
        obtain ⟨seg, hm, he⟩ := he
        exact Or.inr ⟨seg, List.mem_cons_of_mem _ hm, he⟩
    · rw [if_neg hs] at h
      cases ih _ s h with
      | inl hk =>
        cases List.mem_append.mp hk with
        | inl hk2 => exact Or.inl hk2
        | inr hk2 =>
          exact Or.inr ⟨seg0, List.mem_cons_self _ _, (List.mem_singleton.mp hk2).symm⟩
      | inr he =>
        obtain ⟨seg, hm, he⟩ := he
        exact Or.inr ⟨seg, List.mem_cons_of_mem _ hm, he⟩

/-- Closed form of `assign_voices` with a non-empty roster: every
segment keeps its fields and receives the voice its speaker is mapped
to in the first-seen dict. -/
lemma assign_voices_eq (segs : List Segment) (cfg : PodclawConfig)
    (hv : get_all_voices cfg ≠ []) :
    assign_voices segs cfg = some (segs.map (fun seg =>
      ⟨seg.speaker, seg.text,
        (List.lookup seg.speaker
          (assocOfFrom (get_all_voices cfg) 0 (firstSeen segs))).getD dummyVoice⟩)) := by
  have h := speakerMapAux_char (get_all_voices cfg) hv segs []
  rw [assign_voices, speakerMap]
  have h0 : assocOfFrom (get_all_voices cfg) 0 [] = [] := rfl
  rw [h0] at h
  rw [h]
  rfl

lemma firstSeen_nodup (segs : List Segment) : (firstSeen segs).Nodup :=
  firstSeenAux_nodup segs [] List.nodup_nil

/-- The voices `assign_voices` hands out are exactly the values
`voices[i % M]` for `i` ranging over the distinct-speaker positions. -/
lemma used_voices_iff (segs : List Segment) (V : List Voice) (x : Voice) :
    (x ∈ segs.map (fun seg =>
      (List.lookup seg.speaker (assocOfFrom V 0 (firstSeen segs))).getD dummyVoice)) ↔
    ∃ i, i < (firstSeen segs).length ∧ x = V.getD (i % V.length) dummyVoice := by
  constructor
  · intro hx
    obtain ⟨seg, hseg, hfx⟩ := List.mem_map.mp hx
    have hsp : seg.speaker ∈ firstSeen segs := firstSeenAux_mem segs [] seg hseg
    obtain ⟨i, hi, hgi⟩ := List.getElem_of_mem hsp
    have hgd : (firstSeen segs).getD i "" = seg.speaker := by
      rw [List.getD_eq_getElem _ _ hi, hgi]
    refine ⟨i, hi, ?_⟩
    rw [← hfx, ← hgd,
      lookup_assocOfFrom_nodup V (firstSeen segs) 0 i (firstSeen_nodup segs) hi]
    simp
  · intro hx
    obtain ⟨i, hi, hx⟩ := hx
    have hmem : (firstSeen segs).getD i "" ∈ firstSeen segs := by
      rw [List.getD_eq_getElem _ _ hi]; exact List.getElem_mem hi
    cases firstSeenAux_src segs [] _ hmem with
    | inl h0 => simp at h0
    | inr hsrc =>
      obtain ⟨seg, hseg, hspk⟩ := hsrc
      refine List.mem_map.mpr ⟨seg, hseg, ?_⟩
      rw [hspk, lookup_assocOfFrom_nodup V (firstSeen segs) 0 i
        (firstSeen_nodup segs) hi]
      simp [hx]

lemma range_map_getD (V : List Voice) :
    ∀ n, n ≤ V.length →
      (List.range n).map (fun i => V.getD i dummyVoice) = V.take n := by
  intro n
  induction n with
  | zero => intro h; rfl
  | succ n ih =>
    intro h
    have hn : n < V.length := h
    rw [List.range_succ, List.map_append, ih (Nat.le_of_succ_le h), List.take_succ]
    simp [List.getElem?_eq_getElem hn, List.getD_eq_getElem V dummyVoice hn]

/-- C7 (amended): with a non-empty resolved roster of `M` voices,
`assign_voices` succeeds; the `i`-th distinct speaker (first-seen
order) receives `roster[i % M]`; assignment is speaker-stable; with a
duplicate-free resolved roster and `K` distinct speakers, exactly
`min(K, M)` distinct voices are used; and with `M = 1` every segment
receives the single voice. -/
theorem claim_C7_voice_rotation (segs : List Segment) (cfg : PodclawConfig)
    (hv : get_all_voices cfg ≠ []) :
    ∃ res, assign_voices segs cfg = some res ∧
      (∀ j, j < segs.length → ∀ i, i < (firstSeen segs).length →
        (firstSeen segs).getD i "" = (segs.getD j dummySegment).speaker →
        (res.getD j dummyVSegment).voice =
          (get_all_voices cfg).getD (i % (get_all_voices cfg).length) dummyVoice) ∧
      (∀ j k, j < segs.length → k < segs.length →
        (segs.getD j dummySegment).speaker = (segs.getD k dummySegment).speaker →
        (res.getD j dummyVSegment).voice = (res.getD k dummyVSegment).voice) ∧
      ((get_all_voices cfg).Nodup →
        ((res.map (fun s => s.voice)).dedup).length =
          min (firstSeen segs).length (get_all_voices cfg).length) ∧
      ((get_all_voices cfg).length = 1 → ∀ j, j < segs.length →
        (res.getD j dummyVSegment).voice =
          (get_all_voices cfg).getD 0 dummyVoice) := by
  set V := get_all_voices cfg with hV
  refine ⟨_, assign_voices_eq segs cfg hv, ?_, ?_, ?_, ?_⟩
  · -- (a) i-th distinct speaker gets roster[i % M]
    intro j hj i hi hspk
    have hjm : j < (segs.map (fun seg =>
        (⟨seg.speaker, seg.text,
          (List.lookup seg.speaker (assocOfFrom V 0 (firstSeen segs))).getD dummyVoice⟩ :
            VSegment))).length := by simpa using hj
    rw [List.getD_eq_getElem _ _ hjm, List.getElem_map]
    have := lookup_assocOfFrom_nodup V (firstSeen segs) 0 i (firstSeen_nodup segs) hi
    rw [hspk] at this
    rw [List.getD_eq_getElem _ _ hj] at this
    simp only [this]
    simp
  · -- (b) speaker-stability
    intro j k hj hk hspk
    have hjm : j < (segs.map (fun seg =>
        (⟨seg.speaker, seg.text,
          (List.lookup seg.speaker (assocOfFrom V 0 (firstSeen segs))).getD dummyVoice⟩ :
            VSegment))).length := by simpa using hj
    have hkm : k < (segs.map (fun seg =>
        (⟨seg.speaker, seg.text,
          (List.lookup seg.speaker (assocOfFrom V 0 (firstSeen segs))).getD dummyVoice⟩ :
            VSegment))).length := by simpa using hk
    rw [List.getD_eq_getElem _ _ hjm, List.getD_eq_getElem _ _ hkm,
      List.getElem_map, List.getElem_map]
    rw [List.getD_eq_getElem _ _ hj, List.getD_eq_getElem _ _ hk] at hspk
    simp only [hspk]
  · -- (c) cardinality of the used-voice set
    intro hnd
    have hmap : (segs.map (fun seg =>
        (⟨seg.speaker, seg.text,
          (List.lookup seg.speaker (assocOfFrom V 0 (firstSeen segs))).getD dummyVoice⟩ :
            VSegment))).map (fun s => s.voice) =
        segs.map (fun seg =>
          (List.lookup seg.speaker (assocOfFrom V 0 (firstSeen segs))).getD dummyVoice) := by
      rw [List.map_map]; rfl
    rw [hmap]
    set K := (firstSeen segs).length with hK
    set M := V.length with hM
    have hM0 : 0 < M := List.length_pos.mpr hv
    have hminM : min K M ≤ M := Nat.min_le_right _ _
    have hsetEq : (segs.map (fun seg =>
        (List.lookup seg.speaker (assocOfFrom V 0 (firstSeen segs))).getD dummyVoice)).toFinset
        = (V.take (min K M)).toFinset := by
      ext x
      rw [List.mem_toFinset, List.mem_toFinset, used_voices_iff segs V x,
        ← range_map_getD V (min K M) hminM]
      constructor
      · intro hx
        obtain ⟨i, hi, hx⟩ := hx
        refine List.mem_map.mpr ⟨i % M, List.mem_range.mpr ?_, hx.symm⟩
        exact Nat.lt_min.mpr ⟨Nat.lt_of_le_of_lt (Nat.mod_le i M) hi,
          Nat.mod_lt i hM0⟩
      · intro hx
        obtain ⟨j, hj, hx⟩ := List.mem_map.mp hx
        have hj2 := List.mem_range.mp hj
        have hjK : j < K := Nat.lt_of_lt_of_le hj2 (Nat.min_le_left _ _)
        have hjM : j < M := Nat.lt_of_lt_of_le hj2 hminM
        exact ⟨j, hjK, by rw [← hx, Nat.mod_eq_of_lt hjM]⟩
    have hndTake : (V.take (min K M)).Nodup :=
      hnd.sublist (List.take_sublist _ _)
    calc (segs.map (fun seg =>
          (List.lookup seg.speaker (assocOfFrom V 0 (firstSeen segs))).getD
            dummyVoice)).dedup.length
        = (segs.map (fun seg =>
          (List.lookup seg.speaker (assocOfFrom V 0 (firstSeen segs))).getD
            dummyVoice)).toFinset.card := (List.card_toFinset _).symm
      _ = (V.take (min K M)).toFinset.card := by rw [hsetEq]
      _ = (V.take (min K M)).length := List.toFinset_card_of_nodup hndTake
      _ = min K M := by
          rw [List.length_take, Nat.min_eq_left hminM]
  · -- (d) a one-voice roster collapses everything
    intro hM1 j hj
    have hjm : j < (segs.map (fun seg =>
        (⟨seg.speaker, seg.text,
          (List.lookup seg.speaker (assocOfFrom V 0 (firstSeen segs))).getD dummyVoice⟩ :
            VSegment))).length := by simpa using hj
    rw [List.getD_eq_getElem _ _ hjm, List.getElem_map]
    have hspmem : segs[j].speaker ∈ firstSeen segs :=
      firstSeenAux_mem segs [] _ (List.getElem_mem hj)
    obtain ⟨i, hi, hgi⟩ := List.getElem_of_mem hspmem
    have := lookup_assocOfFrom_nodup V (firstSeen segs) 0 i (firstSeen_nodup segs) hi
    rw [List.getD_eq_getElem _ _ hi, hgi] at this
    simp only [this]
    simp [hM1, Nat.mod_one]

/-- Witness for `claim_C7_voice_rotation`: three segments over two
speakers with the default two-voice roster. -/
theorem claim_C7_voice_rotation_witness :
    get_all_voices {} ≠ [] ∧
    ∃ res, assign_voices [⟨"A", "x"⟩, ⟨"B", "y"⟩, ⟨"A", "z"⟩] {} = some res ∧
      (∀ j, j < ([⟨"A", "x"⟩, ⟨"B", "y"⟩, ⟨"A", "z"⟩] : List Segment).length →
        ∀ i, i < (firstSeen [⟨"A", "x"⟩, ⟨"B", "y"⟩, ⟨"A", "z"⟩]).length →
        (firstSeen [⟨"A", "x"⟩, ⟨"B", "y"⟩, ⟨"A", "z"⟩]).getD i "" =
          (([⟨"A", "x"⟩, ⟨"B", "y"⟩, ⟨"A", "z"⟩] : List Segment).getD j
            dummySegment).speaker →
        (res.getD j dummyVSegment).voice =
          (get_all_voices {}).getD (i % (get_all_voices {}).length) dummyVoice) ∧
      (∀ j k, j < ([⟨"A", "x"⟩, ⟨"B", "y"⟩, ⟨"A", "z"⟩] : List Segment).length →
        k < ([⟨"A", "x"⟩, ⟨"B", "y"⟩, ⟨"A", "z"⟩] : List Segment).length →
        (([⟨"A", "x"⟩, ⟨"B", "y"⟩, ⟨"A", "z"⟩] : List Segment).getD j
            dummySegment).speaker =
          (([⟨"A", "x"⟩, ⟨"B", "y"⟩, ⟨"A", "z"⟩] : List Segment).getD k
            dummySegment).speaker →
        (res.getD j dummyVSegment).voice = (res.getD k dummyVSegment).voice) ∧
      ((get_all_voices {}).Nodup →
        ((res.map (fun s => s.voice)).dedup).length =
          min (firstSeen [⟨"A", "x"⟩, ⟨"B", "y"⟩, ⟨"A", "z"⟩]).length
            (get_all_voices {}).length) ∧
      ((get_all_voices {}).length = 1 →
        ∀ j, j < ([⟨"A", "x"⟩, ⟨"B", "y"⟩, ⟨"A", "z"⟩] : List Segment).length →
        (res.getD j dummyVSegment).voice = (get_all_voices {}).getD 0 dummyVoice) :=
  ⟨by decide,
    claim_C7_voice_rotation [⟨"A", "x"⟩, ⟨"B", "y"⟩, ⟨"A", "z"⟩] {} (by decide)⟩

/-- C7 fails as stated: with the roster `["roger", "roger"]` (M = 2)
and two distinct speakers (K = 2), both speakers resolve to the same
built-in voice, so only 1 ≠ min(K, M) = 2 distinct voices are used. -/
theorem claim_C7_counterexample :
    ∃ res, assign_voices [⟨"A", "x"⟩, ⟨"B", "y"⟩]
        { voices := ["roger", "roger"] } = some res ∧
      ((res.map (fun s => s.voice)).dedup).length = 1 ∧
      min (firstSeen [⟨"A", "x"⟩, ⟨"B", "y"⟩]).length
        (get_all_voices { voices := ["roger", "roger"] }).length = 2 := by
  refine ⟨_, rfl, ?_, ?_⟩ <;> decide

/-! ## Voice resolution (`config.get_voice`) -/

/-- C6 (amended): `get_voice` is total; it lower-cases the queried name
and looks it up verbatim among the custom-voice keys, then the
built-in preset keys (all lower-case, hence case-insensitive there);
two names with equal lower-casings resolve to the same profile
whenever either hits an entry, and a name hitting nothing becomes the
raw provider id of a fresh profile. -/
theorem claim_C6_voice_resolution (cfg : PodclawConfig) (n1 n2 : String)
    (hl : pyLower n1 = pyLower n2) :
    ((matchesEntry cfg n1 = true ∨ matchesEntry cfg n2 = true) →
      get_voice cfg n1 = get_voice cfg n2) ∧
    (matchesEntry cfg n1 = false →
      get_voice cfg n1 =
        { name := n1, voice_id := n1, description := "Custom voice ID" }) := by
  have hm : matchesEntry cfg n1 = matchesEntry cfg n2 := by
    rw [matchesEntry, matchesEntry, hl]
  constructor
  · intro hmt
    have hmt1 : matchesEntry cfg n1 = true := by
      cases hmt with
      | inl h => exact h
      | inr h => rw [hm]; exact h
    rw [get_voice, get_voice, hl]
    rw [matchesEntry, Bool.or_eq_true, Option.isSome_iff_exists,
      Option.isSome_iff_exists] at hmt1
    cases hc : List.lookup (pyLower n2) cfg.custom_voices with
    | some v => rfl
    | none =>
      cases hb : List.lookup (pyLower n2) VOICES with
      | some v => rfl
      | none =>
        exfalso
        rw [hl, hc, hb] at hmt1
        rcases hmt1 with ⟨v, hv⟩ | ⟨v, hv⟩ <;> exact Option.noConfusion hv
  · intro hmf
    cases hc : List.lookup (pyLower n1) cfg.custom_voices with
    | some v => rw [matchesEntry, hc] at hmf; simp at hmf
    | none =>
      cases hb : List.lookup (pyLower n1) VOICES with
      | some v => rw [matchesEntry, hc, hb] at hmf; simp at hmf
      | none => rw [get_voice, hc, hb]

/-- Witness for `claim_C6_voice_resolution`: `"ROGER"` and `"roger"`
lower-case identically, both hit the built-in preset, and an unmatched
id falls back to the raw-id profile. -/
theorem claim_C6_voice_resolution_witness :
    pyLower "ROGER" = pyLower "roger" ∧
    (matchesEntry {} "ROGER" = true ∨ matchesEntry {} "roger" = true) ∧
    get_voice {} "ROGER" = get_voice {} "roger" := by
  have h := claim_C6_voice_resolution {} "ROGER" "roger" (by decide)
  exact ⟨by decide, Or.inl (by decide), h.1 (Or.inl (by decide))⟩

/-- C6 fails as stated: a custom voice stored under the key `"Alice"`
is an entry that the (identical) queried name `"Alice"` matches even
without ignoring case, yet resolution lower-cases the query, misses
the stored key, and falls back to the raw-id profile. -/
theorem claim_C6_counterexample :
    ("Alice", ({ name := "My Voice", voice_id := "abc123" } : Voice)) ∈
        ({ custom_voices := [("Alice", { name := "My Voice", voice_id := "abc123" })] } :
          PodclawConfig).custom_voices ∧
      get_voice
          { custom_voices := [("Alice", { name := "My Voice", voice_id := "abc123" })] }
          "Alice" ≠ { name := "My Voice", voice_id := "abc123" } := by
  decide

/-! ## Subtitle line-wrapping (`subtitles._split_long_text`) -/

lemma joinWith_append (sep : String) :
    ∀ (xs ys : List String), xs ≠ [] → ys ≠ [] →
      joinWith sep (xs ++ ys) = joinWith sep xs ++ sep ++ joinWith sep ys := by
  intro xs
  induction xs with
  | nil => intro ys hx _; exact absurd rfl hx
  | cons a rest ih =>
    intro ys hx hy
    cases rest with
    | nil =>
      cases ys with
      | nil => exact absurd rfl hy
      | cons b ys2 => rfl
    | cons b rest2 =>
      have hrec := ih ys (by simp) hy
      calc joinWith sep ((a :: b :: rest2) ++ ys)
          = a ++ sep ++ joinWith sep ((b :: rest2) ++ ys) := rfl
        _ = a ++ sep ++ (joinWith sep (b :: rest2) ++ sep ++ joinWith sep ys) := by
            rw [hrec]
        _ = (a ++ sep ++ joinWith sep (b :: rest2)) ++ sep ++ joinWith sep ys := by
            simp [String.append_assoc]

lemma joinWith_flatten :
    ∀ (gs : List (List String)), (∀ g ∈ gs, g ≠ []) →
      joinWith " " (gs.map (joinWith " ")) = joinWith " " gs.flatten := by
  intro gs
  induction gs with
  | nil => intro _; rfl
  | cons g rest ih =>
    intro hne
    cases rest with
    | nil => simp [joinWith]
    | cons g2 rest2 =>
      have hg : g ≠ [] := hne g (by simp)
      have hg2 : g2 ≠ [] := hne g2 (by simp)
      have hflat : (List.flatten (g2 :: rest2)) ≠ [] := by
        rw [List.flatten_cons]
        intro h
        exact hg2 (List.append_eq_nil.mp h).1
      calc joinWith " " ((g :: g2 :: rest2).map (joinWith " "))
          = joinWith " " g ++ " " ++ joinWith " " ((g2 :: rest2).map (joinWith " ")) := rfl
        _ = joinWith " " g ++ " " ++ joinWith " " (List.flatten (g2 :: rest2)) := by
            rw [ih (fun h hh => hne h (List.mem_cons_of_mem _ hh))]
        _ = joinWith " " (g ++ List.flatten (g2 :: rest2)) := by
            rw [joinWith_append " " g _ hg hflat]
        _ = joinWith " " (List.flatten (g :: g2 :: rest2)) := by
            conv_rhs => rw [List.flatten_cons]

lemma splitStep_inv (maxChars : Nat) (st : List String × List String × Nat)
    (processed : List String) (w : String) (h : wrapInv st processed) :
    wrapInv (splitStep maxChars st w) (processed ++ [w]) := by
  obtain ⟨lines, current, len⟩ := st
  obtain ⟨⟨gs, hgs, hlines, hflat⟩, _⟩ := h
  dsimp only at hlines hflat
  rw [splitStep]
  by_cases hc : len + pyLen w + 1 > maxChars ∧ current ≠ []
  · rw [if_pos hc]
    refine ⟨⟨gs ++ [current], ?_, ?_, ?_⟩, by simp⟩
    · intro g hg
      cases List.mem_append.mp hg with
      | inl h2 => exact hgs g h2
      | inr h2 => rw [List.mem_singleton.mp h2]; exact hc.2
    · simp only [List.map_append, List.map_cons, List.map_nil]
      rw [hlines]
    · simp only [List.flatten_append, List.flatten_cons, List.flatten_nil,
        List.append_nil]
      rw [hflat]
  · rw [if_neg hc]
    refine ⟨⟨gs, hgs, hlines, ?_⟩, by simp⟩
    simp only []
    rw [← List.append_assoc, hflat]

lemma splitFold_inv (maxChars : Nat) :
    ∀ (ws : List String) (st : List String × List String × Nat)
      (processed : List String), wrapInv st processed →
      wrapInv (List.foldl (splitStep maxChars) st ws) (processed ++ ws) := by
  intro ws
  induction ws with
  | nil => intro st processed h; simpa using h
  | cons w rest ih =>
    intro st processed h
    have hstep := splitStep_inv maxChars st processed w h
    have hrec := ih (splitStep maxChars st w) (processed ++ [w]) hstep
    simpa using hrec

/-- C10 (amended): a text within the budget wraps to the single chunk
`[text]` (verbatim, whitespace included); a longer text wraps to the
single-space joins of a partition of its words into consecutive
non-empty groups, so joining the chunks with single spaces equals the
single-space join of its words, and the chunk list is non-empty
whenever the text contains at least one word (a whitespace-only text
over the budget yields the empty list). -/
theorem claim_C10_wrap (text : String) (maxChars : Nat) :
    (pyLen text ≤ maxChars → split_long_text text maxChars = [text]) ∧
    (maxChars < pyLen text →
      joinWith " " (split_long_text text maxChars) = joinWith " " (pyWords text) ∧
      (pyWords text ≠ [] → split_long_text text maxChars ≠ [])) := by
  constructor
  · intro h
    rw [split_long_text, if_pos h]
  · intro h
    have hnot : ¬ pyLen text ≤ maxChars := Nat.not_le.mpr h
    have hinit : wrapInv ([], [], 0) [] := ⟨⟨[], by simp, rfl, rfl⟩, by simp⟩
    have hinv := splitFold_inv maxChars (pyWords text) ([], [], 0) [] hinit
    rw [List.nil_append] at hinv
    rw [split_long_text, if_neg hnot]
    rcases heq : List.foldl (splitStep maxChars) ([], [], 0) (pyWords text)
      with ⟨lines, current, len⟩
    rw [heq] at hinv
    obtain ⟨⟨gs, hgs, hlines, hflat⟩, hemp⟩ := hinv
    simp only [] at hlines hflat hemp
    dsimp only
    by_cases hcur : current = []
    · have h2 := hemp hcur
      rw [if_neg (by simpa using hcur)]
      constructor
      · rw [h2.1, h2.2]
      · intro hw
        exact absurd h2.2 hw
    · rw [if_pos (by simpa using hcur)]
      constructor
      · have : lines ++ [joinWith " " current] = (gs ++ [current]).map (joinWith " ") := by
          rw [List.map_append, hlines]; rfl
        rw [this, joinWith_flatten (gs ++ [current]) ?hne]
        case hne =>
          intro g hg
          cases List.mem_append.mp hg with
          | inl h2 => exact hgs g h2
          | inr h2 => rw [List.mem_singleton.mp h2]; exact hcur
        rw [List.flatten_append, List.flatten_cons, List.flatten_nil,
          List.append_nil, hflat]
      · intro _
        simp

/-- Witness for `claim_C10_wrap`: the within-budget case at
`"Hello world"` / 80, and the wrapping case at a two-word text with
budget 5. -/
theorem claim_C10_wrap_witness :
    (pyLen "Hello world" ≤ 80 ∧ split_long_text "Hello world" 80 = ["Hello world"]) ∧
    (5 < pyLen "aaaaa bbbbb" ∧
      joinWith " " (split_long_text "aaaaa bbbbb" 5) =
        joinWith " " (pyWords "aaaaa bbbbb") ∧
      (pyWords "aaaaa bbbbb" ≠ [] → split_long_text "aaaaa bbbbb" 5 ≠ [])) :=
  ⟨⟨by decide, (claim_C10_wrap "Hello world" 80).1 (by decide)⟩,
    ⟨by decide, (claim_C10_wrap "aaaaa bbbbb" 5).2 (by decide)⟩⟩

/-- C10 fails as stated: a whitespace-only text longer than the budget
produces the empty chunk list, not a non-empty one. -/
theorem claim_C10_counterexample :
    pyLen "   " > 1 ∧ split_long_text "   " 1 = [] := by
  decide

/-! ## Synthesis orchestrator (`tts.synthesize_all_segments`) -/

lemma synthAux_all_ok (ok : Nat → Bool) (total : Nat) :
    ∀ (segs : List VSegment) (b : Nat),
      (∀ i, i < segs.length → ok (b + i) = true) →
      synthAux ok total b segs =
        ((segs.enumFrom b).flatMap (fun p =>
          [SynthEv.progress (p.1 + 1) total p.2.speaker, SynthEv.call p.1]),
         some ((segs.enumFrom b).map (fun p =>
           ⟨p.2.speaker, p.2.text, p.2.voice, segmentFile p.1⟩))) := by
  intro segs
  induction segs with
  | nil => intro b _; rfl
  | cons seg rest ih =>
    intro b hok
    have hb : ok b = true := by simpa using hok 0 (by simp)
    have hrec := ih (b + 1) (fun i hi => by
      have h2 := hok (i + 1) (by simpa using Nat.succ_lt_succ hi)
      have e : b + 1 + i = b + (i + 1) := by ring
      rw [e]
      exact h2)
    rw [synthAux, if_pos hb, hrec]
    simp

lemma synthAux_fail (ok : Nat → Bool) (total : Nat) :
    ∀ (segs : List VSegment) (b i : Nat), i < segs.length →
      ok (b + i) = false → (∀ j, j < i → ok (b + j) = true) →
      synthAux ok total b segs =
        (((segs.take i).enumFrom b).flatMap (fun p =>
            [SynthEv.progress (p.1 + 1) total p.2.speaker, SynthEv.call p.1]) ++
          [SynthEv.progress (b + i + 1) total (segs.getD i dummyVSegment).speaker,
           SynthEv.callFailed (b + i)],
         none) := by
  intro segs
  induction segs with
  | nil => intro b i hi; simp at hi
  | cons seg rest ih =>
    intro b i hi hfail hpre
    cases i with
    | zero =>
      have hb : ok b = false := by simpa using hfail
      rw [synthAux, if_neg (by simp [hb])]
      simp
    | succ i =>
      have hb : ok b = true := by simpa using hpre 0 (Nat.succ_pos i)
      have hir : i < rest.length := by simpa using hi
      have hfail2 : ok (b + 1 + i) = false := by
        rw [show b + 1 + i = b + (i + 1) by ring]; exact hfail
      have hpre2 : ∀ j, j < i → ok (b + 1 + j) = true := fun j hj => by
        rw [show b + 1 + j = b + (j + 1) by ring]
        exact hpre (j + 1) (Nat.succ_lt_succ hj)
      have hrec := ih (b + 1) i hir hfail2 hpre2
      rw [synthAux, if_pos hb, hrec]
      have e1 : b + 1 + i = b + (i + 1) := by ring
      rw [e1]
      simp

/-- C4 (amended): the synthesis orchestrator handles segments strictly
sequentially in order, emitting the progress callback
`(i + 1, total, segment)` immediately BEFORE segment `i`'s synthesis
call (not after it); when every call returns, the trace interleaves
progress and call events in index order and every segment gains its
audio artifact; the first failing call aborts immediately: segments
after it contribute no events and no artifact list is returned, but
the failing segment's progress callback has already fired. -/
theorem claim_C4_synthesis (segs : List VSegment) (ok : Nat → Bool) :
    ((∀ i, i < segs.length → ok i = true) →
      synthesize_all_segments segs ok =
        (segs.enum.flatMap (fun p =>
          [SynthEv.progress (p.1 + 1) segs.length p.2.speaker, SynthEv.call p.1]),
         some (segs.enum.map (fun p =>
           ⟨p.2.speaker, p.2.text, p.2.voice, segmentFile p.1⟩)))) ∧
    (∀ i, i < segs.length → ok i = false → (∀ j, j < i → ok j = true) →
      synthesize_all_segments segs ok =
        (((segs.take i).enum).flatMap (fun p =>
            [SynthEv.progress (p.1 + 1) segs.length p.2.speaker, SynthEv.call p.1]) ++
          [SynthEv.progress (i + 1) segs.length (segs.getD i dummyVSegment).speaker,
           SynthEv.callFailed i],
         none)) := by
  constructor
  · intro hok
    have h := synthAux_all_ok ok segs.length segs 0 (fun i hi => by
      simpa using hok i hi)
    rw [synthesize_all_segments, h]
    rfl
  · intro i hi hfail hpre
    have h := synthAux_fail ok segs.length segs 0 i hi (by simpa using hfail)
      (fun j hj => by simpa using hpre j hj)
    rw [synthesize_all_segments, h]
    simp [List.enum]

/-- Witness for `claim_C4_synthesis`: a two-segment run where every
call returns, and a two-segment run whose first call raises. -/
theorem claim_C4_synthesis_witness :
    (synthesize_all_segments [⟨"A", "x", dummyVoice⟩, ⟨"B", "y", dummyVoice⟩]
        (fun _ => true) =
      ([SynthEv.progress 1 2 "A", SynthEv.call 0,
        SynthEv.progress 2 2 "B", SynthEv.call 1],
       some [⟨"A", "x", dummyVoice, "segment_0000.mp3"⟩,
             ⟨"B", "y", dummyVoice, "segment_0001.mp3"⟩])) ∧
    (synthesize_all_segments [⟨"A", "x", dummyVoice⟩, ⟨"B", "y", dummyVoice⟩]
        (fun _ => false) =
      ([SynthEv.progress 1 2 "A", SynthEv.callFailed 0], none)) := by
  have h1 := (claim_C4_synthesis [⟨"A", "x", dummyVoice⟩, ⟨"B", "y", dummyVoice⟩]
    (fun _ => true)).1 (by intro i _; rfl)
  have h2 := (claim_C4_synthesis [⟨"A", "x", dummyVoice⟩, ⟨"B", "y", dummyVoice⟩]
    (fun _ => false)).2 0 (by decide) rfl (by intro j hj; simp at hj)
  rw [h1, h2]
  exact ⟨by decide, by decide⟩

/-- C4 fails as stated: with a single segment whose synthesis call
raises, the progress notification for that segment is in the trace
even though its audio artifact was never obtained (progress fires
before the call, not after it). -/
theorem claim_C4_counterexample :
    (synthesize_all_segments [⟨"HOST", "hi", dummyVoice⟩] (fun _ => false)).2 = none ∧
    SynthEv.progress 1 1 "HOST" ∈
      (synthesize_all_segments [⟨"HOST", "hi", dummyVoice⟩] (fun _ => false)).1 := by
  decide

/-! ## Parser edge cases and the pipeline's empty-parse path -/

lemma parseStep_id_of_no_tag (l : String)
    (hl : isTagLine (pyStrip l) = false) :
    parseStep ⟨[], "", []⟩ l = ⟨[], "", []⟩ := by
  rw [parseStep]
  by_cases he : pyStrip l = ""
  · rw [if_pos he]
  · rw [if_neg he, if_neg (by simp [hl]), if_neg (by simp)]

lemma foldl_parseStep_no_tags :
    ∀ (lines : List String),
      (∀ l ∈ lines, isTagLine (pyStrip l) = false) →
      lines.foldl parseStep ⟨[], "", []⟩ = ⟨[], "", []⟩ := by
  intro lines
  induction lines with
  | nil => intro _; rfl
  | cons l rest ih =>
    intro h
    rw [List.foldl_cons, parseStep_id_of_no_tag l (h l (by simp))]
    exact ih (fun l2 h2 => h l2 (List.mem_cons_of_mem _ h2))

/-- C8: parsing empty input yields the empty segment list; input whose
stripped lines contain no tag line also parses to the empty list
(without failing — the parser is total); and whenever the resolved
script parses to no segments, the pipeline stops with the distinct
"no segments" parse error, and the whole run writes nothing to the
destination output directory. -/
theorem claim_C8_empty_parse :
    parse_script "" = [] ∧
    (∀ raw : String,
      (∀ l ∈ pyLines (pyStrip raw), isTagLine (pyStrip l) = false) →
      parse_script raw = []) ∧
    (∀ (cfg : PodclawConfig) (script : Option String) (ext : ExtBehavior),
      parse_script (resolveScript cfg script) = [] →
      runPipeline cfg script ext =
        ([Ev.progress "script" "Generating script...", Ev.scratchWrite "script.txt"],
          Except.error
            (PErr.parseErr "Script parsing produced no segments. Check format.")) ∧
      ∀ a, Ev.outputWrite a ∉ (generate cfg script ext).1) := by
  refine ⟨rfl, ?_, ?_⟩
  · intro raw h
    rw [parse_script, foldl_parseStep_no_tags _ h]
    rfl
  · intro cfg script ext hempty
    have hrp : runPipeline cfg script ext =
        ([Ev.progress "script" "Generating script...", Ev.scratchWrite "script.txt"],
          Except.error
            (PErr.parseErr "Script parsing produced no segments. Check format.")) := by
      rw [runPipeline]
      rw [if_pos hempty]
    refine ⟨hrp, ?_⟩
    intro a
    rw [generate]
    by_cases hcfg : cfg.topic = "" ∧ truthy script = false ∧ truthy cfg.custom_script = false
    · rw [if_pos hcfg]
      simp
    · rw [if_neg hcfg]
      simp only [hrp]
      intro hmem
      simp at hmem

/-- Witness for `claim_C8_empty_parse`: an untagged script string, and
the pipeline run on it. -/
theorem claim_C8_empty_parse_witness :
    parse_script "Just some text without tags" = [] ∧
    (runPipeline {} (some "Just some text without tags") {} =
      ([Ev.progress "script" "Generating script...", Ev.scratchWrite "script.txt"],
        Except.error
          (PErr.parseErr "Script parsing produced no segments. Check format.")) ∧
      ∀ a, Ev.outputWrite a ∉ (generate {} (some "Just some text without tags") {}).1) :=
  ⟨claim_C8_empty_parse.2.1 "Just some text without tags" (by decide),
    claim_C8_empty_parse.2.2 {} (some "Just some text without tags") {} (by decide)⟩

/-- C5: the failing input (empty voice roster with a parseable script)
evaluated in the model: the run fails with the division-by-zero error
raised inside `assign_voices`, not with the configuration error, and
only after the script has been written to scratch (partial work). -/
theorem claim_C5_empty_roster_run :
    (generate { topic := "x", voices := [] } (some "[HOST] hi") {}).2
        = Except.error PErr.zeroDivErr ∧
    Ev.scratchWrite "script.txt" ∈
      (generate { topic := "x", voices := [] } (some "[HOST] hi") {}).1 := by
  decide

/-- C3 fails as stated: a run whose subtitle-copy step raises (an
IOError during the final artifact copies) still leaves the video and
the final audio in the destination output directory. -/
theorem claim_C3_counterexample :
    (generate { topic := "ai" } (some "[HOST] hi") { copySrtOk := false }).2
        = Except.error (PErr.copyErr Artifact.srtFinal) ∧
    Ev.outputWrite Artifact.video ∈
      (generate { topic := "ai" } (some "[HOST] hi") { copySrtOk := false }).1 ∧
    Ev.outputWrite Artifact.audioFinal ∈
      (generate { topic := "ai" } (some "[HOST] hi") { copySrtOk := false }).1 := by
  decide

/-! ## Output-directory write discipline (`generator._run_pipeline`) -/

lemma synth_no_output :
    ∀ (l : List SynthEv), (l.flatMap synthEvToEv).filter isOutputWrite = [] := by
  intro l
  induction l with
  | nil => rfl
  | cons e rest ih =>
    rw [List.flatMap_cons, List.filter_append, ih, List.append_nil]
    cases e <;> rfl

lemma runPipeline_output_writes (cfg : PodclawConfig) (script : Option String)
    (ext : ExtBehavior) :
    (∃ k, k ≤ 5 ∧
      (runPipeline cfg script ext).1.filter isOutputWrite = outputOrder.take k) ∧
    (∀ m, (runPipeline cfg script ext).2 = Except.ok m →
      (runPipeline cfg script ext).1.filter isOutputWrite = outputOrder) ∧
    (∀ e, (runPipeline cfg script ext).2 = Except.error e →
      (∀ a, e ≠ PErr.copyErr a) →
      (runPipeline cfg script ext).1.filter isOutputWrite = []) := by
  rw [runPipeline]
  dsimp only
  by_cases h1 : parse_script (resolveScript cfg script) = []
  · rw [if_pos h1]
    exact ⟨⟨0, by omega, rfl⟩, fun m hm => by simp at hm, fun e he hne => rfl⟩
  · rw [if_neg h1]
    cases hassign : assign_voices (parse_script (resolveScript cfg script)) cfg with
    | none =>
      exact ⟨⟨0, by omega, rfl⟩, fun m hm => by simp at hm, fun e he hne => rfl⟩
    | some vsegs =>
      dsimp only
      by_cases hkey : ext.apiKeyPresent = false
      · rw [if_pos hkey]
        exact ⟨⟨0, by omega, rfl⟩, fun m hm => by simp at hm, fun e he hne => rfl⟩
      · rw [if_neg hkey]
        cases hsyn : (synthesize_all_segments vsegs ext.synthOk).2 with
        | none =>
          refine ⟨⟨0, by omega, ?_⟩, fun m hm => by simp at hm, fun e he hne => ?_⟩ <;>
            simp [isOutputWrite, List.filter_append, synth_no_output]
        | some asegs =>
          dsimp only
          by_cases hcat : ext.concatOk = false
          · rw [if_pos hcat]
            refine ⟨⟨0, by omega, ?_⟩, fun m hm => by simp at hm,
              fun e he hne => ?_⟩ <;>
              simp [isOutputWrite, List.filter_append, synth_no_output]
          · rw [if_neg hcat]
            by_cases hbg : ext.bgOk = false
            · rw [if_pos hbg]
              refine ⟨⟨0, by omega, ?_⟩, fun m hm => by simp at hm,
                fun e he hne => ?_⟩ <;>
                simp [isOutputWrite, List.filter_append, synth_no_output]
            · rw [if_neg hbg]
              by_cases hasm : ext.assembleOk = false
              · rw [if_pos hasm]
                refine ⟨⟨0, by omega, ?_⟩, fun m hm => by simp at hm,
                  fun e he hne => ?_⟩ <;>
                  simp [isOutputWrite, List.filter_append, synth_no_output]
              · rw [if_neg hasm]
                by_cases hca : ext.copyAudioOk = false
                · rw [if_pos hca]
                  refine ⟨⟨1, by omega, ?_⟩, fun m hm => by simp at hm,
                    fun e he hne => ?_⟩
                  · simp [isOutputWrite, List.filter_append, synth_no_output,
                      outputOrder]
                  · exfalso
                    apply hne Artifact.audioFinal
                    simpa using he.symm
                · rw [if_neg hca]
                  by_cases hcs : ext.copySrtOk = false
                  · rw [if_pos hcs]
                    refine ⟨⟨2, by omega, ?_⟩, fun m hm => by simp at hm,
                      fun e he hne => ?_⟩
                    · simp [isOutputWrite, List.filter_append, synth_no_output,
                        outputOrder]
                    · exfalso
                      apply hne Artifact.srtFinal
                      simpa using he.symm
                  · rw [if_neg hcs]
                    by_cases hcc : ext.copyScriptOk = false
                    · rw [if_pos hcc]
                      refine ⟨⟨3, by omega, ?_⟩, fun m hm => by simp at hm,
                        fun e he hne => ?_⟩
                      · simp [isOutputWrite, List.filter_append, synth_no_output,
                          outputOrder]
                      · exfalso
                        apply hne Artifact.scriptFinal
                        simpa using he.symm
                    · rw [if_neg hcc]
                      by_cases hcb : ext.copyBgOk = false
                      · rw [if_pos hcb]
                        refine ⟨⟨4, by omega, ?_⟩, fun m hm => by simp at hm,
                          fun e he hne => ?_⟩
                        · simp [isOutputWrite, List.filter_append, synth_no_output,
                            outputOrder]
                        · exfalso
                          apply hne Artifact.bgFinal
                          simpa using he.symm
                      · rw [if_neg hcb]
                        refine ⟨⟨5, by omega, ?_⟩, fun m hm => ?_,
                          fun e he hne => by simp at he⟩ <;>
                          simp [isOutputWrite, List.filter_append, synth_no_output,
                            outputOrder]

/-- C3 (amended): the audio, subtitle, script and background artifacts
are copied into the destination output directory only after every
prior stage, video assembly included, has succeeded — a run failing
with any error other than a copy error writes nothing there; but the
video itself is written directly into the destination during the
assembly stage, before those copies, so the destination's content is
always a prefix `video, audio, subtitles, script, background` of the
artifact sequence and a failure in the copy phase leaves the video and
the already-copied artifacts behind. -/
theorem claim_C3_output_discipline (cfg : PodclawConfig) (script : Option String)
    (ext : ExtBehavior) :
    (∃ k, k ≤ 5 ∧
      (generate cfg script ext).1.filter isOutputWrite = outputOrder.take k) ∧
    (∀ m, (generate cfg script ext).2 = Except.ok m →
      (generate cfg script ext).1.filter isOutputWrite = outputOrder) ∧
    (∀ e, (generate cfg script ext).2 = Except.error e →
      (∀ a, e ≠ PErr.copyErr a) →
      (generate cfg script ext).1.filter isOutputWrite = []) := by
  have h := runPipeline_output_writes cfg script ext
  rw [generate]
  by_cases hcfg : cfg.topic = "" ∧ truthy script = false ∧ truthy cfg.custom_script = false
  · rw [if_pos hcfg]
    exact ⟨⟨0, by omega, rfl⟩, fun m hm => by simp at hm, fun e he hne => rfl⟩
  · rw [if_neg hcfg]
    dsimp only
    have hfe : ((Ev.scratchDirCreate :: Ev.outputDirCreate ::
        (runPipeline cfg script ext).1) ++ [Ev.cleanup]).filter isOutputWrite
        = (runPipeline cfg script ext).1.filter isOutputWrite := by
      rw [List.filter_append, List.filter_cons, List.filter_cons]
      simp [isOutputWrite]
    refine ⟨?_, ?_, ?_⟩
    · obtain ⟨k, hk, hfk⟩ := h.1
      exact ⟨k, hk, by rw [hfe, hfk]⟩
    · intro m hm
      rw [hfe]
      exact h.2.1 m hm
    · intro e he hne
      rw [hfe]
      exact h.2.2 e he hne

/-- Witness for `claim_C3_output_discipline`: a fully successful run
writes all five artifacts in order. -/
theorem claim_C3_output_discipline_witness :
    (generate { topic := "ai" } (some "[HOST] hi") {}).2 = Except.ok ⟨1, 0⟩ ∧
    (generate { topic := "ai" } (some "[HOST] hi") {}).1.filter isOutputWrite
      = outputOrder := by
  have h := (claim_C3_output_discipline { topic := "ai" } (some "[HOST] hi") {}).2.1
    ⟨1, 0⟩ (by decide)
  exact ⟨by decide, h⟩

/-! ## Subtitle compilation timing (`subtitles.generate_srt`) -/

lemma segmentEntries_length (mc : Nat) (ss : Bool) (seg : Segment) (t : Timing)
    (base : Nat) :
    (segmentEntries mc ss seg t base).length = (segChunks mc ss seg).length := by
  simp [segmentEntries]

lemma segmentEntries_getD (mc : Nat) (ss : Bool) (seg : Segment) (t : Timing)
    (base i : Nat) (hi : i < (segChunks mc ss seg).length) :
    (segmentEntries mc ss seg t base).getD i dummyCaption =
      ⟨base + i,
        t.start_ms + i * segMpc mc ss seg t,
        if i = (segChunks mc ss seg).length - 1 then t.end_ms
        else t.start_ms + (i + 1) * segMpc mc ss seg t,
        (segChunks mc ss seg).getD i ""⟩ := by
  have him : i < (segmentEntries mc ss seg t base).length := by
    rw [segmentEntries_length]; exact hi
  rw [List.getD_eq_getElem _ _ him, List.getD_eq_getElem _ _ hi]
  simp only [segmentEntries, List.getElem_map, List.getElem_enum]

lemma enumFrom_map_add (base : Nat) :
    ∀ (l : List String) (j : Nat),
      (l.enumFrom j).map (fun p => base + p.1) = List.range' (base + j) l.length := by
  intro l
  induction l with
  | nil => intro j; rfl
  | cons a rest ih =>
    intro j
    rw [List.enumFrom_cons, List.map_cons, ih (j + 1), List.length_cons,
      List.range'_succ]
    rfl

lemma segmentEntries_indices (mc : Nat) (ss : Bool) (seg : Segment) (t : Timing)
    (base : Nat) :
    (segmentEntries mc ss seg t base).map (fun e => e.index) =
      List.range' base (segmentEntries mc ss seg t base).length := by
  rw [segmentEntries_length, segmentEntries, List.map_map]
  have h := enumFrom_map_add base (segChunks mc ss seg) 0
  simpa using h

lemma srtEntriesAux_indices (mc : Nat) (ss : Bool) :
    ∀ (l : List (Segment × Timing)) (base : Nat),
      (srtEntriesAux mc ss l base).map (fun e => e.index) =
        List.range' base (srtEntriesAux mc ss l base).length := by
  intro l
  induction l with
  | nil => intro base; rfl
  | cons p rest ih =>
    intro base
    obtain ⟨seg, t⟩ := p
    rw [srtEntriesAux]
    rw [List.map_append, segmentEntries_indices, ih, List.length_append,
      List.range'_append_1, Nat.add_comm]

lemma srtEntriesAux_eq_blocks (mc : Nat) (ss : Bool) :
    ∀ (l : List (Segment × Timing)) (base : Nat),
      srtEntriesAux mc ss l base = (srtBlocks mc ss l base).flatten := by
  intro l
  induction l with
  | nil => intro base; rfl
  | cons p rest ih =>
    intro base
    obtain ⟨seg, t⟩ := p
    rw [srtEntriesAux, srtBlocks, List.flatten_cons, ih]

lemma captionChainB_of_indexed :
    ∀ (es : List CaptionEntry),
      (∀ i, i + 1 < es.length →
        (es.getD i dummyCaption).start_ms < (es.getD (i + 1) dummyCaption).start_ms ∧
        (es.getD i dummyCaption).end_ms ≤ (es.getD (i + 1) dummyCaption).start_ms) →
      captionChainB es = true := by
  intro es
  induction es with
  | nil => intro _; rfl
  | cons a rest ih =>
    intro h
    cases rest with
    | nil => rfl
    | cons b rest2 =>
      have h0 := h 0 (by simp)
      simp only [List.getD_cons_zero, List.getD_cons_succ] at h0
      have hrec : captionChainB (b :: rest2) = true := by
        apply ih
        intro i hi
        have h2 := h (i + 1) (by simpa using Nat.succ_lt_succ hi)
        simpa using h2
      rw [captionChainB, hrec, decide_eq_true h0.1, decide_eq_true h0.2]
      rfl

lemma captionNondegB_of_indexed (es : List CaptionEntry)
    (h : ∀ i, i < es.length →
      (es.getD i dummyCaption).start_ms < (es.getD i dummyCaption).end_ms) :
    captionNondegB es = true := by
  rw [captionNondegB, List.all_eq_true]
  intro e he
  obtain ⟨i, hi, hgi⟩ := List.getElem_of_mem he
  have h2 := h i hi
  rw [List.getD_eq_getElem _ _ hi, hgi] at h2
  exact decide_eq_true h2

/-- C1 (amended): entry indices across the whole subtitle sequence are
the contiguous 1-based counter; the sequence is the concatenation of
the per-segment blocks; and within each segment block with `C ≥ 1`
chunks and timing `start ≤ end`, the entries follow the chunk formula
(`ms_per_chunk = total // C`, chunk `k` spanning
`[start + k*mpc, start + (k+1)*mpc)`, last end forced to `end_ms`),
the block spans exactly `[start_ms, end_ms)` with adjacent boundaries
meeting, and — whenever the segment lasts at least one millisecond per
chunk (`C ≤ total`) — its time ranges are strictly increasing,
non-overlapping and non-empty. -/
theorem claim_C1_subtitle_entries (segs : List Segment) (timings : List Timing)
    (mc : Nat) (ss : Bool) :
    ((generate_srt_entries segs timings mc ss).map (fun e => e.index) =
      List.range' 1 (generate_srt_entries segs timings mc ss).length) ∧
    (generate_srt_entries segs timings mc ss =
      (srtBlocks mc ss (segs.zip timings) 1).flatten) ∧
    (∀ (seg : Segment) (t : Timing) (base : Nat),
      t.start_ms ≤ t.end_ms → 1 ≤ (segChunks mc ss seg).length →
      (segmentEntries mc ss seg t base).length = (segChunks mc ss seg).length ∧
      (∀ i, i < (segChunks mc ss seg).length →
        (segmentEntries mc ss seg t base).getD i dummyCaption =
          ⟨base + i, t.start_ms + i * segMpc mc ss seg t,
            if i = (segChunks mc ss seg).length - 1 then t.end_ms
            else t.start_ms + (i + 1) * segMpc mc ss seg t,
            (segChunks mc ss seg).getD i ""⟩) ∧
      ((segmentEntries mc ss seg t base).getD 0 dummyCaption).start_ms = t.start_ms ∧
      ((segmentEntries mc ss seg t base).getD ((segChunks mc ss seg).length - 1)
          dummyCaption).end_ms = t.end_ms ∧
      (∀ i, i + 1 < (segChunks mc ss seg).length →
        ((segmentEntries mc ss seg t base).getD i dummyCaption).end_ms =
          ((segmentEntries mc ss seg t base).getD (i + 1) dummyCaption).start_ms) ∧
      ((segChunks mc ss seg).length ≤ t.end_ms - t.start_ms →
        entriesStrictB (segmentEntries mc ss seg t base) = true)) := by
  refine ⟨?_, ?_, ?_⟩
  · exact srtEntriesAux_indices mc ss (segs.zip timings) 1
  · exact srtEntriesAux_eq_blocks mc ss (segs.zip timings) 1
  · intro seg t base hse hC
    set C := (segChunks mc ss seg).length with hCdef
    set mpc := segMpc mc ss seg t with hmpcdef
    have hmax : max C 1 = C := Nat.max_eq_left hC
    have hmpc_eq : mpc = (t.end_ms - t.start_ms) / C := by
      rw [hmpcdef, segMpc, ← hCdef, hmax]
    have hCmpc_le : C * mpc ≤ t.end_ms - t.start_ms := by
      rw [hmpc_eq, Nat.mul_comm]
      exact Nat.div_mul_le_self _ _
    refine ⟨segmentEntries_length mc ss seg t base, ?_, ?_, ?_, ?_, ?_⟩
    · intro i hi
      exact segmentEntries_getD mc ss seg t base i hi
    · rw [segmentEntries_getD mc ss seg t base 0 hC]
      simp
    · have hlt : C - 1 < C := Nat.sub_lt hC Nat.one_pos
      rw [segmentEntries_getD mc ss seg t base (C - 1) hlt]
      simp
    · intro i hi
      have hi1 : i < C := Nat.lt_of_succ_lt hi
      have hne : i ≠ C - 1 := by omega
      rw [segmentEntries_getD mc ss seg t base i hi1,
        segmentEntries_getD mc ss seg t base (i + 1) hi]
      simp only [if_neg hne]
    · intro htot
      have hmpc1 : 1 ≤ mpc := by
        rw [hmpc_eq]
        exact (Nat.one_le_div_iff (Nat.lt_of_lt_of_le Nat.zero_lt_one hC)).mpr htot
      have hlen : (segmentEntries mc ss seg t base).length = C :=
        segmentEntries_length mc ss seg t base
      have hstep : ∀ i, i * mpc < (i + 1) * mpc := by
        intro i
        rw [Nat.succ_mul]
        omega
      rw [entriesStrictB, Bool.and_eq_true]
      constructor
      · apply captionChainB_of_indexed
        intro i hi
        rw [hlen] at hi
        have hi1 : i < C := Nat.lt_of_succ_lt hi
        have hne : i ≠ C - 1 := by omega
        rw [segmentEntries_getD mc ss seg t base i hi1,
          segmentEntries_getD mc ss seg t base (i + 1) hi]
        simp only [if_neg hne]
        exact ⟨Nat.add_lt_add_left (hstep i) _, Nat.le_refl _⟩
      · apply captionNondegB_of_indexed
        intro i hi
        rw [hlen] at hi
        rw [segmentEntries_getD mc ss seg t base i hi]
        by_cases hlast : i = C - 1
        · rw [if_pos hlast]
          dsimp only
          rw [← hmpcdef]
          have hCm : (C - 1) * mpc + mpc = C * mpc := by
            have h1 : C - 1 + 1 = C := Nat.succ_pred_eq_of_pos hC
            calc (C - 1) * mpc + mpc = (C - 1 + 1) * mpc := (Nat.succ_mul _ _).symm
              _ = C * mpc := by rw [h1]
          have hend : t.start_ms + (t.end_ms - t.start_ms) = t.end_ms :=
            Nat.add_sub_cancel' hse
          have him : i * mpc < t.end_ms - t.start_ms := by
            rw [hlast]
            omega
          omega
        · rw [if_neg hlast]
          exact Nat.add_lt_add_left (hstep i) _

/-- Witness for `claim_C1_subtitle_entries`: the two-short-segment
scenario (timings `{0,3000}`, `{3000,6000}`) of the spec, checked at
its first segment block. -/
theorem claim_C1_subtitle_entries_witness :
    ((0 : Nat) ≤ 3000 ∧ 1 ≤ (segChunks 80 false ⟨"H", "hi"⟩).length ∧
      (segChunks 80 false ⟨"H", "hi"⟩).length ≤ 3000 - 0) ∧
    ((segmentEntries 80 false ⟨"H", "hi"⟩ ⟨0, 3000⟩ 1).getD 0 dummyCaption).start_ms
        = 0 ∧
    entriesStrictB (segmentEntries 80 false ⟨"H", "hi"⟩ ⟨0, 3000⟩ 1) = true := by
  have h := (claim_C1_subtitle_entries [⟨"H", "hi"⟩] [⟨0, 3000⟩] 80 false).2.2
    ⟨"H", "hi"⟩ ⟨0, 3000⟩ 1 (by decide) (by decide)
  exact ⟨⟨by decide, by decide, by decide⟩, h.2.2.1, h.2.2.2.2.2 (by decide)⟩

/-- C1 fails as stated: a segment wrapping into two chunks whose
timing spans a single millisecond gets `ms_per_chunk = 0`, so its
first caption entry is the degenerate range `[0, 0)` and the entry
ranges are not strictly increasing. -/
theorem claim_C1_counterexample :
    generate_srt_entries
        [⟨"H", String.mk (List.replicate 50 'a') ++ " " ++
            String.mk (List.replicate 50 'b')⟩]
        [⟨0, 1⟩] 80 false =
      [⟨1, 0, 0, String.mk (List.replicate 50 'a')⟩,
       ⟨2, 0, 1, String.mk (List.replicate 50 'b')⟩] ∧
    entriesStrictB (generate_srt_entries
        [⟨"H", String.mk (List.replicate 50 'a') ++ " " ++
            String.mk (List.replicate 50 'b')⟩]
        [⟨0, 1⟩] 80 false) = false := by
  decide

end Podclaw
